import Mathlib

/- Verification development for `src/simulation.py`: a three-station
production line driven by the simpy discrete-event kernel.

The embedding models the simpy event loop faithfully: every `yield` in the
Python code corresponds to one scheduled event, events are ordered by the
key (due time, priority, insertion id) exactly as in simpy (`URGENT = 0`
for process-initialisation events, `NORMAL = 1` for everything else), and
each event's handler runs the atomic segment of Python code between two
`yield`s.  The two client processes (`source` and `flow`), the three
`Station`s, the two `simpy.Store` buffers `q01`/`q12` and the per-station
`simpy.Resource`s are represented in the simulation state.  Service and
inter-arrival times are drawn from a stream `exps : ℕ → ℚ` of
unit-exponential draws: `random.expovariate(1.0 / mean)` equals
`mean * (-log(1 - random()))`, so the k-th call returns `mean * exps k`;
the stream order matches the order of `expovariate` calls on Python's
single module-level seeded generator. -/

namespace Sim

/-- CONFIG["SIM_TIME"] = 8 * 60 minutes (src/simulation.py line 11). -/
def SIM_TIME : ℚ := 8 * 60

/-- CONFIG["WARMUP"] = 60 minutes (line 12). -/
def WARMUP : ℚ := 60

/-- CONFIG["ARRIVAL_MEAN"] = 5.0 minutes (line 13). -/
def ARRIVAL_MEAN : ℚ := 5

/-- CONFIG["PROC_MEANS"] = [6.0, 7.0, 5.0] (line 14). -/
def PROC_MEANS : List ℚ := [6, 7, 5]

/-- CONFIG["BUFFER_RANGE"] = [0, 2, 5, 10] (line 15). -/
def BUFFER_RANGE : List ℤ := [0, 2, 5, 10]

/-- A part as created by `source`: the dict {"id": i, "t_arrive": env.now}
(line 44). -/
structure Part where
  id : ℕ
  tArrive : ℚ
deriving DecidableEq, Repr

/-- An item of the inter-station buffer `q12`: the dict
{"id": part["id"], "t_s0_end": t_end} (line 56). -/
structure MidPart where
  id : ℕ
  tS0End : ℚ
deriving DecidableEq, Repr

/-- An entry of `out_list`: {"id": part2["id"], "t_out": t2e} (line 73). -/
structure OutRec where
  id : ℕ
  tOut : ℚ
deriving DecidableEq, Repr

/-- A row of `log_rows`:
[part2["id"], t_start, t_end, t1s, t1e, t2s, t2e] (line 74). -/
structure LogRow where
  id : ℕ
  t0s : ℚ
  t0e : ℚ
  t1s : ℚ
  t1e : ℚ
  t2s : ℚ
  t2e : ℚ
deriving DecidableEq, Repr

/-- A `Station` (lines 22-36): mean process time, cumulative busy time and
the transient `last_start` marker.  The capacity-1 `simpy.Resource` is kept
separately in the simulation state (`res0`/`res1`/`res2`: true while held). -/
structure Station where
  meanProc : ℚ
  busyTime : ℚ
  lastStart : Option ℚ
deriving DecidableEq, Repr

/-- Station.__init__ (lines 23-29): busy_time = 0.0, last_start = None. -/
def Station.init (mean : ℚ) : Station := ⟨mean, 0, none⟩

/-- The kinds of pending simpy events.  Each constructor corresponds to one
`yield` point of `source` (lines 38-44) or `flow` (lines 46-74); the
payload carries the Python local variables that are live across that
`yield`.  `srcInit`/`flowInit` are the simpy `Initialize` events created by
`env.process(...)` (lines 86-87); `stKInit`/`stKTimeout`/`stKEnd` are the
initialisation, `env.timeout(pt)` and process-termination events of the
`Station.process` sub-process of stage K (lines 31-36, yielded at lines
53, 63, 70); `resRelease` is the `Resource.release` event created when a
`with ... .request()` block is exited (nobody waits on it; its processing
would grant the next queued request, and no request is ever queued). -/
inductive EvKind where
  | srcInit
  | flowInit
  | srcTimeout
  | srcPutDone
  | flowGotPart (p : Part)
  | flowReq0 (p : Part)
  | st0Init (p : Part) (tS : ℚ)
  | st0Timeout (p : Part) (tS pt : ℚ)
  | st0End (p : Part) (tS : ℚ)
  | flowPut12Done (p : Part) (tS tE : ℚ)
  | flowGot12 (p : Part) (p2 : MidPart) (tS tE : ℚ)
  | flowReq1 (p : Part) (p2 : MidPart) (tS tE : ℚ)
  | st1Init (p : Part) (p2 : MidPart) (tS tE t1s : ℚ)
  | st1Timeout (p : Part) (p2 : MidPart) (tS tE t1s pt : ℚ)
  | st1End (p : Part) (p2 : MidPart) (tS tE t1s : ℚ)
  | flowReq2 (p : Part) (p2 : MidPart) (tS tE t1s t1e : ℚ)
  | st2Init (p : Part) (p2 : MidPart) (tS tE t1s t1e t2s : ℚ)
  | st2Timeout (p : Part) (p2 : MidPart) (tS tE t1s t1e t2s pt : ℚ)
  | st2End (p : Part) (p2 : MidPart) (tS tE t1s t1e t2s : ℚ)
  | resRelease (stage : ℕ)
deriving DecidableEq, Repr

/-- A scheduled simpy event: due time, priority (0 = URGENT for
`Initialize` events, 1 = NORMAL for all others) and the strictly increasing
insertion id used to break ties. -/
structure Ev where
  time : ℚ
  prio : ℕ
  eid : ℕ
  kind : EvKind
deriving DecidableEq, Repr

/-- The simpy event-queue key: events are processed in lexicographic
(time, priority, insertion id) order. -/
def Ev.key (e : Ev) : Lex (ℚ × Lex (ℕ × ℕ)) := toLex (e.time, toLex (e.prio, e.eid))

/-- The ways the `flow` process can be suspended without a scheduled event:
waiting on `q01.get()` (line 49) when the buffer is empty, or — branches
that the pipeline never reaches but that the simpy primitives have — in a
resource wait queue, blocked on a full `q12.put` (line 56), or blocked on an
empty `q12.get` (line 59). -/
inductive FlowBlk where
  | waitQ01
  | waitRes0 (p : Part)
  | waitPut12 (p : Part) (tS tE : ℚ) (item : MidPart)
  | waitGet12 (p : Part) (tS tE : ℚ)
  | waitRes1 (p : Part) (p2 : MidPart) (tS tE : ℚ)
  | waitRes2 (p : Part) (p2 : MidPart) (tS tE t1s t1e : ℚ)
deriving DecidableEq, Repr

/-- The full simulation state of one `run_once` (lines 76-99): virtual
clock, next insertion id, pending events, position in the random stream,
the `source` counter `i` and its possibly blocked put, the suspension
state of `flow`, the two store capacities and contents, the three stations
with their resources, and the two output lists. -/
structure SimState where
  now : ℚ
  nextEid : ℕ
  events : List Ev
  rnd : ℕ
  srcI : ℕ
  srcBlk : Option Part
  flowBlk : Option FlowBlk
  cap01 : ℤ
  cap12 : ℤ
  q01 : List Part
  q12 : List MidPart
  s0 : Station
  s1 : Station
  s2 : Station
  res0 : Bool
  res1 : Bool
  res2 : Bool
  out : List OutRec
  log : List LogRow
deriving DecidableEq, Repr

/-- Pop the pending event with the least (time, priority, insertion id)
key, keeping the remaining events in order.  This is simpy's heap pop. -/
def popMin : List Ev → Option (Ev × List Ev)
  | [] => none
  | e :: es =>
    match popMin es with
    | none => some (e, [])
    | some (m, rest) => if m.key < e.key then some (m, e :: rest) else some (e, es)

/-- Schedule a new event at time `t` with priority `prio`, consuming the
next insertion id (simpy `Environment.schedule`). -/
def SimState.sched (σ : SimState) (t : ℚ) (prio : ℕ) (k : EvKind) : SimState :=
  { σ with events := σ.events ++ [⟨t, prio, σ.nextEid, k⟩], nextEid := σ.nextEid + 1 }

/-- One turn of the `source` loop body before its timeout (lines 40-43):
`i += 1; inter = random.expovariate(1.0 / arrival_mean);
yield env.timeout(inter)`.  Runs at process start and each time a
`yield in_queue.put(...)` returns. -/
def srcResume (exps : ℕ → ℚ) (σ : SimState) : SimState :=
  ({ σ with srcI := σ.srcI + 1, rnd := σ.rnd + 1 }).sched
    (σ.now + ARRIVAL_MEAN * exps σ.rnd) 1 .srcTimeout

/-- `part = yield q01.get()` (line 49): a simpy `StoreGet` pops the head of
the item list already at event creation when the store is non-empty, and
otherwise parks the process in the store's get queue. -/
def flowIssueGet (σ : SimState) : SimState :=
  match σ.q01 with
  | [] => { σ with flowBlk := some .waitQ01 }
  | p :: rest => ({ σ with q01 := rest }).sched σ.now 1 (.flowGotPart p)

/-- The `_trigger_get` callback run when a `q01` put event is processed:
if `flow` is parked in the get queue and an item is buffered, hand it the
head item and schedule its resumption. -/
def wakeQ01Get (σ : SimState) : SimState :=
  if σ.flowBlk = some .waitQ01 then
    match σ.q01 with
    | [] => σ
    | p :: rest => ({ σ with q01 := rest, flowBlk := none }).sched σ.now 1 (.flowGotPart p)
  else σ

/-- The `_trigger_put` callback run when a `q01` get event is processed:
if `source` is blocked on a full `q01.put` and room has appeared, append
its captured item and schedule its resumption. -/
def wakeQ01Put (σ : SimState) : SimState :=
  match σ.srcBlk with
  | none => σ
  | some item =>
    if (σ.q01.length : ℤ) < σ.cap01 then
      ({ σ with q01 := σ.q01 ++ [item], srcBlk := none }).sched σ.now 1 .srcPutDone
    else σ

/-- `stations[0].resource.request()` then `yield req0` (lines 50-51): a
capacity-1 `simpy.Resource` grants at request creation when free (the
grant event still goes through the queue); otherwise the process joins the
resource's wait queue. -/
def requestRes0 (p : Part) (σ : SimState) : SimState :=
  if σ.res0 then { σ with flowBlk := some (.waitRes0 p) }
  else ({ σ with res0 := true }).sched σ.now 1 (.flowReq0 p)

/-- `stations[1].resource.request()` then `yield req1` (lines 60-61). -/
def requestRes1 (p : Part) (p2 : MidPart) (tS tE : ℚ) (σ : SimState) : SimState :=
  if σ.res1 then { σ with flowBlk := some (.waitRes1 p p2 tS tE) }
  else ({ σ with res1 := true }).sched σ.now 1 (.flowReq1 p p2 tS tE)

/-- `stations[2].resource.request()` then `yield req2` (lines 67-68). -/
def requestRes2 (p : Part) (p2 : MidPart) (tS tE t1s t1e : ℚ) (σ : SimState) : SimState :=
  if σ.res2 then { σ with flowBlk := some (.waitRes2 p p2 tS tE t1s t1e) }
  else ({ σ with res2 := true }).sched σ.now 1 (.flowReq2 p p2 tS tE t1s t1e)

/-- Process one event: run the atomic Python segment between the `yield`
that created the event and the next `yield` (or suspension). -/
def handle (exps : ℕ → ℚ) (σ : SimState) : EvKind → SimState
  | .srcInit => srcResume exps σ
  | .flowInit => flowIssueGet σ
  | .srcTimeout =>
    -- line 44: yield in_queue.put({"id": i, "t_arrive": env.now}); the dict
    -- is built at the call, and a simpy StorePut appends it at event
    -- creation when there is room, else the put waits with the item.
    let item : Part := ⟨σ.srcI, σ.now⟩
    if (σ.q01.length : ℤ) < σ.cap01 then
      ({ σ with q01 := σ.q01 ++ [item] }).sched σ.now 1 .srcPutDone
    else { σ with srcBlk := some item }
  | .srcPutDone => srcResume exps (wakeQ01Get σ)
  | .flowGotPart p => requestRes0 p (wakeQ01Put σ)
  | .flowReq0 p =>
    -- line 52: t_start = env.now; line 53: yield env.process(stations[0].process())
    -- creates the sub-process; its Initialize event is URGENT (priority 0).
    σ.sched σ.now 0 (.st0Init p σ.now)
  | .st0Init p tS =>
    -- lines 32-34: pt = random.expovariate(1.0 / mean_proc);
    -- last_start = env.now; yield env.timeout(pt)
    let pt := σ.s0.meanProc * exps σ.rnd
    ({ σ with rnd := σ.rnd + 1, s0 := { σ.s0 with lastStart := some σ.now } }).sched
      (σ.now + pt) 1 (.st0Timeout p tS pt)
  | .st0Timeout p tS pt =>
    -- lines 35-36: busy_time += pt; last_start = None; the generator ends,
    -- so the process event succeeds and is scheduled at the current time.
    ({ σ with s0 := { σ.s0 with busyTime := σ.s0.busyTime + pt, lastStart := none } }).sched
      σ.now 1 (.st0End p tS)
  | .st0End p tS =>
    -- line 54: t_end = env.now; the `with` block exits releasing res0;
    -- line 56: yield q12.put({"id": part["id"], "t_s0_end": t_end}).
    let tE := σ.now
    let σ1 := ({ σ with res0 := false }).sched σ.now 1 (.resRelease 0)
    if (σ1.q12.length : ℤ) < σ1.cap12 then
      ({ σ1 with q12 := σ1.q12 ++ [(⟨p.id, tE⟩ : MidPart)] }).sched σ1.now 1 (.flowPut12Done p tS tE)
    else { σ1 with flowBlk := some (.waitPut12 p tS tE ⟨p.id, tE⟩) }
  | .flowPut12Done p tS tE =>
    -- line 59: part2 = yield q12.get(); the pop happens at get creation
    -- when q12 is non-empty.  (The put event's _trigger_get callback finds
    -- no parked consumer: `flow` is the only process touching q12.)
    match σ.q12 with
    | [] => { σ with flowBlk := some (.waitGet12 p tS tE) }
    | p2 :: rest => ({ σ with q12 := rest }).sched σ.now 1 (.flowGot12 p p2 tS tE)
  | .flowGot12 p p2 tS tE => requestRes1 p p2 tS tE σ
  | .flowReq1 p p2 tS tE =>
    -- line 62: t1s = env.now; line 63: yield env.process(stations[1].process())
    σ.sched σ.now 0 (.st1Init p p2 tS tE σ.now)
  | .st1Init p p2 tS tE t1s =>
    let pt := σ.s1.meanProc * exps σ.rnd
    ({ σ with rnd := σ.rnd + 1, s1 := { σ.s1 with lastStart := some σ.now } }).sched
      (σ.now + pt) 1 (.st1Timeout p p2 tS tE t1s pt)
  | .st1Timeout p p2 tS tE t1s pt =>
    ({ σ with s1 := { σ.s1 with busyTime := σ.s1.busyTime + pt, lastStart := none } }).sched
      σ.now 1 (.st1End p p2 tS tE t1s)
  | .st1End p p2 tS tE t1s =>
    -- line 64: t1e = env.now; the `with` exits releasing res1; lines 67-68:
    -- request station 2 directly (no extra buffer at end).
    let t1e := σ.now
    let σ1 := ({ σ with res1 := false }).sched σ.now 1 (.resRelease 1)
    requestRes2 p p2 tS tE t1s t1e σ1
  | .flowReq2 p p2 tS tE t1s t1e =>
    -- line 69: t2s = env.now; line 70: yield env.process(stations[2].process())
    σ.sched σ.now 0 (.st2Init p p2 tS tE t1s t1e σ.now)
  | .st2Init p p2 tS tE t1s t1e t2s =>
    let pt := σ.s2.meanProc * exps σ.rnd
    ({ σ with rnd := σ.rnd + 1, s2 := { σ.s2 with lastStart := some σ.now } }).sched
      (σ.now + pt) 1 (.st2Timeout p p2 tS tE t1s t1e t2s pt)
  | .st2Timeout p p2 tS tE t1s t1e t2s pt =>
    ({ σ with s2 := { σ.s2 with busyTime := σ.s2.busyTime + pt, lastStart := none } }).sched
      σ.now 1 (.st2End p p2 tS tE t1s t1e t2s)
  | .st2End p p2 tS tE t1s t1e t2s =>
    -- line 71: t2e = env.now; the `with` exits releasing res2; lines 73-74
    -- append to out_list and log_rows; the loop restarts at line 49.
    let t2e := σ.now
    let σ1 := ({ σ with res2 := false }).sched σ.now 1 (.resRelease 2)
    let σ2 := { σ1 with out := σ1.out ++ [⟨p2.id, t2e⟩],
                        log := σ1.log ++ [⟨p2.id, tS, tE, t1s, t1e, t2s, t2e⟩] }
    flowIssueGet σ2
  | .resRelease _ =>
    -- processing a Release event would grant the head of the resource wait
    -- queue; the single `flow` process never queues a second request.
    σ

/-- The key of the stop event scheduled by `env.run(until=SIM_TIME)`
(line 88): simpy schedules it with URGENT priority at run() start, after
the two Initialize events, so it holds insertion id 2.  Events at time
SIM_TIME scheduled during the run lose against it. -/
def stopKey : Lex (ℚ × Lex (ℕ × ℕ)) := toLex (SIM_TIME, toLex (0, 2))

/-- One iteration of the simpy main loop (env.run, line 88): pop the least
pending event; if it beats the stop event, advance the clock to its due
time and handle it, otherwise the run is over and the state is final. -/
def step (exps : ℕ → ℚ) (σ : SimState) : SimState :=
  match popMin σ.events with
  | none => σ
  | some (e, rest) =>
    if e.key < stopKey then handle exps { σ with events := rest, now := e.time } e.kind
    else σ

/-- The state of `run_once buffer_cap` before the first event fires
(lines 77-88): stations built from PROC_MEANS, `q01` with capacity
`buffer_cap if buffer_cap > 0 else 1_000_000` (line 81), `q12` with
capacity `buffer_cap` (line 82), and the two Initialize events of
`env.process(source(...))` and `env.process(flow(...))` (insertion ids 0
and 1; the stop event of env.run takes id 2). -/
def initState (bufferCap : ℤ) : SimState where
  now := 0
  nextEid := 3
  events := [⟨0, 0, 0, .srcInit⟩, ⟨0, 0, 1, .flowInit⟩]
  rnd := 0
  srcI := 0
  srcBlk := none
  flowBlk := none
  cap01 := if bufferCap > 0 then bufferCap else 1000000
  cap12 := bufferCap
  q01 := []
  q12 := []
  s0 := Station.init (PROC_MEANS.getD 0 0)
  s1 := Station.init (PROC_MEANS.getD 1 0)
  s2 := Station.init (PROC_MEANS.getD 2 0)
  res0 := false
  res1 := false
  res2 := false
  out := []
  log := []

/-- `fuel` iterations of the simpy main loop from the initial state of
`run_once bufferCap`.  Once the stop event wins (or the queue empties),
`step` is the identity, so every sufficiently large fuel yields the final
state. -/
def runSim (exps : ℕ → ℚ) (bufferCap : ℤ) : ℕ → SimState
  | 0 => initState bufferCap
  | n + 1 => step exps (runSim exps bufferCap n)

/-- Errors surfaced by construction-time validation. -/
inductive SimError where
  | invalidCapacity
deriving DecidableEq, Repr

/-- Modelled from the spec: the kernel `Store` constructor (simpy.Store,
not part of src/) validates its capacity eagerly — "Capacity 0 is
disallowed at construction (`InvalidCapacity`)", and `InvalidConfiguration`
covers "non-positive capacity ... detected eagerly at construction ...
never silently clamped".  A non-positive capacity is rejected, a positive
one is accepted unchanged. -/
def mkStoreCapacity (cap : ℤ) : Except SimError ℤ :=
  if cap ≤ 0 then .error .invalidCapacity else .ok cap

/-- The record returned by `run_once` (lines 94-99). -/
structure RunResult where
  buffer : ℤ
  throughputPerMin : ℚ
  utilization : List ℚ
  log : List LogRow
deriving DecidableEq, Repr

/-- `run_once(buffer_cap)` (lines 76-99): build the two stores (q01 with
the large-capacity substitute for non-positive configured capacity, q12
with the configured capacity — construction of q12 fails for non-positive
capacity), run the event loop until SIM_TIME, then compute the metrics:
`prod = [r for r in out_list if r["t_out"] >= WARMUP]`,
`throughput_per_min = len(prod) / (SIM_TIME - WARMUP)`,
`util = [s.busy_time / SIM_TIME for s in [s0, s1, s2]]`. -/
def run_once (exps : ℕ → ℚ) (fuel : ℕ) (bufferCap : ℤ) : Except SimError RunResult := do
  let _c01 ← mkStoreCapacity (if bufferCap > 0 then bufferCap else 1000000)
  let _c12 ← mkStoreCapacity bufferCap
  let σ := runSim exps bufferCap fuel
  let prod := σ.out.filter (fun r => WARMUP ≤ r.tOut)
  .ok { buffer := bufferCap
        throughputPerMin := (prod.length : ℚ) / (SIM_TIME - WARMUP)
        utilization := [σ.s0.busyTime / SIM_TIME, σ.s1.busyTime / SIM_TIME,
                        σ.s2.busyTime / SIM_TIME]
        log := σ.log }

/-- The total busy time accumulated over the three stations. -/
def busySum (σ : SimState) : ℚ := σ.s0.busyTime + σ.s1.busyTime + σ.s2.busyTime

/-- Events owned by the `flow` process (including the station sub-processes
it spawns and waits on). -/
def EvKind.isFlow : EvKind → Bool
  | .srcInit => false
  | .srcTimeout => false
  | .srcPutDone => false
  | .resRelease _ => false
  | _ => true

/-- Events owned by the `source` process. -/
def EvKind.isSrc : EvKind → Bool
  | .srcInit => true
  | .srcTimeout => true
  | .srcPutDone => true
  | _ => false

/-- The id of the part the `flow` process is currently holding, read off the
payload of its pending event (if any). -/
def EvKind.heldId : EvKind → Option ℕ
  | .srcInit => none
  | .flowInit => none
  | .srcTimeout => none
  | .srcPutDone => none
  | .resRelease _ => none
  | .flowGotPart p => some p.id
  | .flowReq0 p => some p.id
  | .st0Init p _ => some p.id
  | .st0Timeout p _ _ => some p.id
  | .st0End p _ => some p.id
  | .flowPut12Done p _ _ => some p.id
  | .flowGot12 p _ _ _ => some p.id
  | .flowReq1 p _ _ _ => some p.id
  | .st1Init p _ _ _ _ => some p.id
  | .st1Timeout p _ _ _ _ _ => some p.id
  | .st1End p _ _ _ _ => some p.id
  | .flowReq2 p _ _ _ _ _ => some p.id
  | .st2Init p _ _ _ _ _ _ => some p.id
  | .st2Timeout p _ _ _ _ _ _ _ => some p.id
  | .st2End p _ _ _ _ _ _ => some p.id

/-- The id of the part held by a suspended-without-event `flow`. -/
def FlowBlk.heldId : FlowBlk → Option ℕ
  | .waitQ01 => none
  | .waitRes0 p => some p.id
  | .waitPut12 p _ _ _ => some p.id
  | .waitGet12 p _ _ => some p.id
  | .waitRes1 p _ _ _ => some p.id
  | .waitRes2 p _ _ _ _ _ => some p.id

/-- The (at most one) part id currently held by the `flow` process. -/
def flowHeld (σ : SimState) : List ℕ :=
  (σ.events.filterMap (fun e => e.kind.heldId)) ++
    (σ.flowBlk.bind FlowBlk.heldId).toList

/-- The part id captured by a `source` blocked on a full `q01.put`. -/
def srcPend (σ : SimState) : List ℕ := (σ.srcBlk.map Part.id).toList

/-- Number of live suspension points of `flow`: its pending event or its
event-less block state.  Exactly one at every reachable state. -/
def flowTok (σ : SimState) : ℕ :=
  σ.events.countP (fun e => e.kind.isFlow) + (if σ.flowBlk.isSome then 1 else 0)

/-- Number of live suspension points of `source`. -/
def srcTok (σ : SimState) : ℕ :=
  σ.events.countP (fun e => e.kind.isSrc) + (if σ.srcBlk.isSome then 1 else 0)

/-- Number of parts the `source` loop has fully created so far: `srcI`
counts loop iterations begun (`i += 1` precedes the timeout), so while the
iteration's timeout (or the initialisation) is still pending the current
iteration has not yet built its part. -/
def created (σ : SimState) : ℕ :=
  if σ.events.any (fun e => e.kind == .srcInit || e.kind == .srcTimeout)
  then σ.srcI - 1 else σ.srcI

/-- Payload well-formedness of a pending event, relative to the current
state: due times of the station timeouts are start-plus-duration, the
timestamp chain carried by the `flow` payloads is ordered, the part handed
through `q12` keeps its id, completed busy time predates any running
service, and `q12` holds exactly the one item deposited by the pending
put (and is empty at every other suspension point of `flow`). -/
def EvWF (σ : SimState) (e : Ev) : Prop :=
  match e.kind with
  | .srcInit => True
  | .flowInit => σ.q12 = []
  | .srcTimeout => True
  | .srcPutDone => True
  | .resRelease _ => True
  | .flowGotPart _ => σ.q12 = []
  | .flowReq0 _ => σ.q12 = []
  | .st0Init _ tS => e.time = tS ∧ σ.q12 = []
  | .st0Timeout _ tS pt => e.time = tS + pt ∧ 0 ≤ pt ∧ busySum σ ≤ tS ∧ σ.q12 = []
  | .st0End _ tS => tS ≤ e.time ∧ σ.q12 = []
  | .flowPut12Done p tS tE => tS ≤ tE ∧ tE ≤ e.time ∧ σ.q12 = [⟨p.id, tE⟩]
  | .flowGot12 p p2 tS tE => tS ≤ tE ∧ tE ≤ e.time ∧ p2 = ⟨p.id, tE⟩ ∧ σ.q12 = []
  | .flowReq1 p p2 tS tE => tS ≤ tE ∧ tE ≤ e.time ∧ p2 = ⟨p.id, tE⟩ ∧ σ.q12 = []
  | .st1Init p p2 tS tE t1s =>
      e.time = t1s ∧ tS ≤ tE ∧ tE ≤ t1s ∧ p2 = ⟨p.id, tE⟩ ∧ σ.q12 = []
  | .st1Timeout p p2 tS tE t1s pt =>
      e.time = t1s + pt ∧ 0 ≤ pt ∧ busySum σ ≤ t1s ∧ tS ≤ tE ∧ tE ≤ t1s ∧
        p2 = ⟨p.id, tE⟩ ∧ σ.q12 = []
  | .st1End p p2 tS tE t1s =>
      tS ≤ tE ∧ tE ≤ t1s ∧ t1s ≤ e.time ∧ p2 = ⟨p.id, tE⟩ ∧ σ.q12 = []
  | .flowReq2 p p2 tS tE t1s t1e =>
      tS ≤ tE ∧ tE ≤ t1s ∧ t1s ≤ t1e ∧ t1e ≤ e.time ∧ p2 = ⟨p.id, tE⟩ ∧ σ.q12 = []
  | .st2Init p p2 tS tE t1s t1e t2s =>
      e.time = t2s ∧ tS ≤ tE ∧ tE ≤ t1s ∧ t1s ≤ t1e ∧ t1e ≤ t2s ∧
        p2 = ⟨p.id, tE⟩ ∧ σ.q12 = []
  | .st2Timeout p p2 tS tE t1s t1e t2s pt =>
      e.time = t2s + pt ∧ 0 ≤ pt ∧ busySum σ ≤ t2s ∧ tS ≤ tE ∧ tE ≤ t1s ∧
        t1s ≤ t1e ∧ t1e ≤ t2s ∧ p2 = ⟨p.id, tE⟩ ∧ σ.q12 = []
  | .st2End p p2 tS tE t1s t1e t2s =>
      tS ≤ tE ∧ tE ≤ t1s ∧ t1s ≤ t1e ∧ t1e ≤ t2s ∧ t2s ≤ e.time ∧
        p2 = ⟨p.id, tE⟩ ∧ σ.q12 = []

/-- Well-formedness of an event-less suspension of `flow`: `q12` is empty
there, a block on the `q12` put can only arise from a non-positive
configured q12 capacity, and a block on the `q12` get is unreachable. -/
def FlowBlkWF (σ : SimState) : FlowBlk → Prop
  | .waitQ01 => σ.q12 = []
  | .waitRes0 _ => σ.q12 = []
  | .waitPut12 _ _ _ _ => σ.q12 = [] ∧ σ.cap12 ≤ 0
  | .waitGet12 _ _ _ => False
  | .waitRes1 _ _ _ _ => σ.q12 = []
  | .waitRes2 _ _ _ _ _ _ => σ.q12 = []

/-- A fully logged row respects the per-part state machine: the six
per-stage timestamps are non-decreasing in stage order. -/
def RowOK (r : LogRow) : Prop :=
  r.t0s ≤ r.t0e ∧ r.t0e ≤ r.t1s ∧ r.t1s ≤ r.t1e ∧ r.t1e ≤ r.t2s ∧ r.t2s ≤ r.t2e

/-- The inductive invariant of the simulation: clock/queue sanity, busy-time
accounting, single suspension point per process, conservation and FIFO
order of part ids, payload well-formedness, and well-formed output logs. -/
structure Inv (σ : SimState) : Prop where
  nowLe : ∀ e ∈ σ.events, σ.now ≤ e.time
  nowMax : σ.now ≤ SIM_TIME
  mean0 : 0 ≤ σ.s0.meanProc
  mean1 : 0 ≤ σ.s1.meanProc
  mean2 : 0 ≤ σ.s2.meanProc
  busy0 : 0 ≤ σ.s0.busyTime
  busy1 : 0 ≤ σ.s1.busyTime
  busy2 : 0 ≤ σ.s2.busyTime
  busyNow : busySum σ ≤ σ.now
  flowTok1 : flowTok σ = 1
  srcTok1 : srcTok σ = 1
  srcInit0 : ∀ e ∈ σ.events, e.kind = .srcInit → σ.srcI = 0
  srcTimeout1 : ∀ e ∈ σ.events, e.kind = .srcTimeout → 1 ≤ σ.srcI
  conserve : σ.out.map OutRec.id ++ flowHeld σ ++ σ.q01.map Part.id ++ srcPend σ =
    List.range' 1 (created σ)
  evWF : ∀ e ∈ σ.events, EvWF σ e
  blkWF : ∀ b, σ.flowBlk = some b → FlowBlkWF σ b
  logOK : ∀ r ∈ σ.log, RowOK r
  logIds : σ.log.map LogRow.id = σ.out.map OutRec.id


/-- A concrete sampler stream (every unit-exponential draw equal to 1) used
to exercise the theorems on a specific run. -/
def unitStream : ℕ → ℚ := fun _ => 1

/-- The result record of a zero-step run with buffer capacity 2: no part
has completed and no busy time has accumulated. -/
def smallRes : RunResult :=
  { buffer := 2
    throughputPerMin := ((0 : ℕ) : ℚ) / (SIM_TIME - WARMUP)
    utilization := [(0 : ℚ) / SIM_TIME, (0 : ℚ) / SIM_TIME, (0 : ℚ) / SIM_TIME]
    log := [] }

/-- A small concrete state with a pending stage-0 service start (part 1,
arrived and started at time 5) and the next arrival due at 10, used to
instantiate the service-sampling theorem. -/
def c3state : SimState where
  now := 5
  nextEid := 9
  events := [⟨5, 0, 8, EvKind.st0Init ⟨1, 5⟩ 5⟩, ⟨10, 1, 6, EvKind.srcTimeout⟩]
  rnd := 1
  srcI := 2
  srcBlk := none
  flowBlk := none
  cap01 := 2
  cap12 := 2
  q01 := []
  q12 := []
  s0 := Station.init 6
  s1 := Station.init 7
  s2 := Station.init 5
  res0 := true
  res1 := false
  res2 := false
  out := []
  log := []

theorem popMin_eq_none : ∀ {l : List Ev}, popMin l = none ↔ l = [] := by
  intro l
  cases l with
  | nil => simp [popMin]
  | cons a es =>
    simp only [popMin]
    cases hes : popMin es with
    | none => simp
    | some pr =>
      rcases pr with ⟨m, r⟩
      by_cases hk : m.key < a.key <;> simp [hk]

theorem popMin_split : ∀ {l : List Ev} {e : Ev} {rest : List Ev},
    popMin l = some (e, rest) → ∃ l₁ l₂, l = l₁ ++ e :: l₂ ∧ rest = l₁ ++ l₂ := by
  intro l
  induction l with
  | nil => intro e rest h; simp [popMin] at h
  | cons a es ih =>
    intro e rest h
    simp only [popMin] at h
    cases hes : popMin es with
    | none =>
      rw [hes] at h
      simp only [Option.some.injEq, Prod.mk.injEq] at h
      obtain ⟨he, hr⟩ := h
      subst he
      exact ⟨[], [], by simp [(popMin_eq_none).mp hes], by simp [hr.symm]⟩
    | some pr =>
      rcases pr with ⟨m, r⟩
      rw [hes] at h
      by_cases hk : m.key < a.key
      · simp only [hk, if_true, Option.some.injEq, Prod.mk.injEq] at h
        obtain ⟨he, hr⟩ := h
        subst he
        obtain ⟨l₁, l₂, h1, h2⟩ := ih hes
        refine ⟨a :: l₁, l₂, ?_, ?_⟩
        · simp [h1]
        · simp [hr.symm, h2]
      · simp only [hk, if_false, Option.some.injEq, Prod.mk.injEq] at h
        obtain ⟨he, hr⟩ := h
        subst he
        exact ⟨[], es, by simp, by simp [hr.symm]⟩

theorem popMin_min : ∀ {l : List Ev} {e : Ev} {rest : List Ev},
    popMin l = some (e, rest) → ∀ x ∈ l, e.key ≤ x.key := by
  intro l
  induction l with
  | nil => intro e rest h; simp [popMin] at h
  | cons a es ih =>
    intro e rest h x hx
    simp only [popMin] at h
    cases hes : popMin es with
    | none =>
      rw [hes] at h
      simp only [Option.some.injEq, Prod.mk.injEq] at h
      obtain ⟨he, _⟩ := h
      subst he
      rcases List.mem_cons.mp hx with hxa | hxes
      · exact le_of_eq (by rw [hxa])
      · simp [(popMin_eq_none).mp hes] at hxes
    | some pr =>
      rcases pr with ⟨m, r⟩
      rw [hes] at h
      by_cases hk : m.key < a.key
      · simp only [hk, if_true, Option.some.injEq, Prod.mk.injEq] at h
        obtain ⟨he, _⟩ := h
        subst he
        rcases List.mem_cons.mp hx with hxa | hxes
        · rw [hxa]; exact le_of_lt hk
        · exact ih hes x hxes
      · simp only [hk, if_false, Option.some.injEq, Prod.mk.injEq] at h
        obtain ⟨he, _⟩ := h
        subst he
        rcases List.mem_cons.mp hx with hxa | hxes
        · exact le_of_eq (by rw [hxa])
        · exact le_trans (le_of_not_lt hk) (ih hes x hxes)

theorem key_le_time {a b : Ev} (h : a.key ≤ b.key) : a.time ≤ b.time := by
  unfold Ev.key at h
  rcases (Prod.Lex.le_iff _ _).mp h with h1 | ⟨h1, _⟩
  · exact le_of_lt h1
  · exact le_of_eq h1

theorem stop_time {e : Ev} (h : e.key < stopKey) : e.time ≤ SIM_TIME := by
  unfold Ev.key stopKey at h
  rcases (Prod.Lex.lt_iff _ _).mp h with h1 | ⟨h1, _⟩
  · exact le_of_lt h1
  · exact le_of_eq h1

theorem key_lt_stop {e : Ev} (h : e.time < SIM_TIME) : e.key < stopKey := by
  unfold Ev.key stopKey
  exact (Prod.Lex.lt_iff _ _).mpr (Or.inl h)

theorem heldId_eq_none {k : EvKind} (h : k.isFlow = false) : k.heldId = none := by
  cases k <;> simp_all [EvKind.isFlow, EvKind.heldId]

theorem filterMap_heldId_nil : ∀ {l : List Ev},
    l.countP (fun e => e.kind.isFlow) = 0 →
    l.filterMap (fun e => e.kind.heldId) = [] := by
  intro l
  induction l with
  | nil => intro _; rfl
  | cons a es ih =>
    intro h
    rw [List.countP_cons] at h
    by_cases ha : a.kind.isFlow
    · simp [ha] at h
    · rw [List.filterMap_cons, heldId_eq_none (Bool.eq_false_iff.mpr ha)]
      exact ih (by simpa [ha] using h)

theorem EvWF_nonflow {σ : SimState} {x : Ev} (h : x.kind.isFlow = false) : EvWF σ x := by
  cases hk : x.kind <;> simp_all [EvKind.isFlow, EvWF]

theorem EvWF_mono {σ σ' : SimState} {x : Ev} (hq : σ'.q12 = σ.q12)
    (hb : busySum σ' = busySum σ) (h : EvWF σ x) : EvWF σ' x := by
  cases hk : x.kind <;> simp_all [EvWF, hk]

theorem FlowBlkWF_mono {σ σ' : SimState} {b : FlowBlk} (hq : σ'.q12 = σ.q12)
    (hc : σ'.cap12 = σ.cap12) (h : FlowBlkWF σ b) : FlowBlkWF σ' b := by
  cases b <;> simp_all [FlowBlkWF]

theorem flow_token_split {σ : SimState} {e : Ev} {l₁ l₂ : List Ev}
    (h1 : flowTok σ = 1) (hsp : σ.events = l₁ ++ e :: l₂) (hf : e.kind.isFlow = true) :
    l₁.countP (fun x => x.kind.isFlow) = 0 ∧ l₂.countP (fun x => x.kind.isFlow) = 0 ∧
      σ.flowBlk = none := by
  rw [flowTok, hsp] at h1
  simp only [List.countP_append, List.countP_cons, hf, if_true] at h1
  cases hb : σ.flowBlk with
  | none =>
    rw [hb] at h1
    simp only [Option.isSome_none, Bool.false_eq_true, if_false] at h1
    exact ⟨by omega, by omega, rfl⟩
  | some b =>
    rw [hb] at h1
    simp only [Option.isSome_some, if_true] at h1
    exact absurd h1 (by omega)

theorem src_token_split {σ : SimState} {e : Ev} {l₁ l₂ : List Ev}
    (h1 : srcTok σ = 1) (hsp : σ.events = l₁ ++ e :: l₂) (hf : e.kind.isSrc = true) :
    l₁.countP (fun x => x.kind.isSrc) = 0 ∧ l₂.countP (fun x => x.kind.isSrc) = 0 ∧
      σ.srcBlk = none := by
  rw [srcTok, hsp] at h1
  simp only [List.countP_append, List.countP_cons, hf, if_true] at h1
  cases hb : σ.srcBlk with
  | none =>
    rw [hb] at h1
    simp only [Option.isSome_none, Bool.false_eq_true, if_false] at h1
    exact ⟨by omega, by omega, rfl⟩
  | some b =>
    rw [hb] at h1
    simp only [Option.isSome_some, if_true] at h1
    exact absurd h1 (by omega)

theorem flow_token_blk {σ : SimState} (h1 : flowTok σ = 1) {b : FlowBlk}
    (hb : σ.flowBlk = some b) : σ.events.countP (fun x => x.kind.isFlow) = 0 := by
  rw [flowTok, hb] at h1
  simp only [Option.isSome_some, if_true] at h1
  omega

theorem countP_zero_not {l : List Ev} {p : Ev → Bool} (h : l.countP p = 0)
    {x : Ev} (hx : x ∈ l) : p x = false := by
  rcases List.countP_eq_zero.mp h x hx with h'
  simpa using h'

theorem srcLoop_isSrc {k : EvKind} (h : (k == EvKind.srcInit || k == EvKind.srcTimeout) = true) :
    k.isSrc = true := by
  cases k <;> simp_all [EvKind.isSrc]

theorem any_srcLoop_zero {l : List Ev} (h : l.countP (fun e => e.kind.isSrc) = 0) :
    (l.any (fun e => e.kind == EvKind.srcInit || e.kind == EvKind.srcTimeout)) = false := by
  rw [List.any_eq_false]
  intro x hx
  have := countP_zero_not h hx
  intro hcon
  rw [srcLoop_isSrc (by simpa using hcon)] at this
  cases this

theorem flow_case_facts {σ : SimState} {e : Ev} {l₁ l₂ : List Ev}
    (h1 : flowTok σ = 1) (hsp : σ.events = l₁ ++ e :: l₂) (hf : e.kind.isFlow = true) :
    σ.flowBlk = none ∧ (l₁.countP (fun x => x.kind.isFlow) = 0 ∧
      l₂.countP (fun x => x.kind.isFlow) = 0) ∧
      l₁.filterMap (fun x => x.kind.heldId) = [] ∧
      l₂.filterMap (fun x => x.kind.heldId) = [] := by
  obtain ⟨hc1, hc2, hb⟩ := flow_token_split h1 hsp hf
  exact ⟨hb, ⟨hc1, hc2⟩, filterMap_heldId_nil hc1, filterMap_heldId_nil hc2⟩

theorem range'_sub_concat {n : ℕ} (h : 1 ≤ n) :
    List.range' 1 (n - 1) ++ [n] = List.range' 1 n := by
  obtain ⟨m, rfl⟩ := Nat.exists_eq_add_of_le h
  simp only [Nat.add_sub_cancel_left]
  rw [Nat.add_comm 1 m, List.range'_concat]
  simp [Nat.add_comm]

theorem src_case_facts {σ : SimState} {e : Ev} {l₁ l₂ : List Ev}
    (h1 : srcTok σ = 1) (hsp : σ.events = l₁ ++ e :: l₂) (hf : e.kind.isSrc = true) :
    σ.srcBlk = none ∧ (l₁ ++ l₂).countP (fun x => x.kind.isSrc) = 0 := by
  obtain ⟨hc1, hc2, hb⟩ := src_token_split h1 hsp hf
  exact ⟨hb, by rw [List.countP_append]; omega⟩

theorem any_srcLoop_erase {l₁ l₂ : List Ev} {e : Ev}
    (hne : (e.kind == EvKind.srcInit || e.kind == EvKind.srcTimeout) = false) :
    (l₁ ++ l₂).any (fun x => x.kind == EvKind.srcInit || x.kind == EvKind.srcTimeout)
      = (l₁ ++ e :: l₂).any (fun x => x.kind == EvKind.srcInit || x.kind == EvKind.srcTimeout) := by
  simp only [List.any_append, List.any_cons, hne, Bool.false_or]

theorem evWF_rest_nonflow {σ' : SimState} {l : List Ev}
    (hc : l.countP (fun x => x.kind.isFlow) = 0) : ∀ x ∈ l, EvWF σ' x :=
  fun x hx => EvWF_nonflow (countP_zero_not hc hx)

theorem srcInit0_transport {σ' σ : SimState} {rest news : List Ev}
    (hev : σ'.events = rest ++ news) (hsi : σ'.srcI = σ.srcI)
    (hmemR : ∀ x ∈ rest, x ∈ σ.events)
    (hnews : ∀ x ∈ news, ¬ x.kind = EvKind.srcInit)
    (h : ∀ x ∈ σ.events, x.kind = EvKind.srcInit → σ.srcI = 0) :
    ∀ x ∈ σ'.events, x.kind = EvKind.srcInit → σ'.srcI = 0 := by
  intro x hx hk
  rw [hev] at hx
  rw [hsi]
  rcases List.mem_append.mp hx with hr | hn
  · exact h x (hmemR x hr) hk
  · exact absurd hk (hnews x hn)

theorem srcTimeout1_transport {σ' σ : SimState} {rest news : List Ev}
    (hev : σ'.events = rest ++ news) (hsi : σ'.srcI = σ.srcI)
    (hmemR : ∀ x ∈ rest, x ∈ σ.events)
    (hnews : ∀ x ∈ news, ¬ x.kind = EvKind.srcTimeout)
    (h : ∀ x ∈ σ.events, x.kind = EvKind.srcTimeout → 1 ≤ σ.srcI) :
    ∀ x ∈ σ'.events, x.kind = EvKind.srcTimeout → 1 ≤ σ'.srcI := by
  intro x hx hk
  rw [hev] at hx
  rw [hsi]
  rcases List.mem_append.mp hx with hr | hn
  · exact h x (hmemR x hr) hk
  · exact absurd hk (hnews x hn)

theorem step_inv (exps : ℕ → ℚ) (he : ∀ i, 0 ≤ exps i) (σ : SimState) (h : Inv σ) :
    Inv (step exps σ) := by
  unfold step
  cases hpop : popMin σ.events with
  | none => exact h
  | some pr =>
    rcases pr with ⟨e, rest⟩
    by_cases hstop : e.key < stopKey
    · simp only [hstop, if_true]
      obtain ⟨l₁, l₂, hsplit, hrest⟩ := popMin_split hpop
      have hmem : e ∈ σ.events := by rw [hsplit]; simp
      have hnowe : σ.now ≤ e.time := h.nowLe e hmem
      have hemax : e.time ≤ SIM_TIME := stop_time hstop
      have hmemR : ∀ x ∈ rest, x ∈ σ.events := by
        intro x hx
        rw [hsplit]; rw [hrest] at hx
        simp only [List.mem_append, List.mem_cons] at hx ⊢
        tauto
      have hrestT : ∀ x ∈ rest, e.time ≤ x.time := fun x hx =>
        key_le_time (popMin_min hpop x (hmemR x hx))
      have hewf : EvWF σ e := h.evWF e hmem
      have hbusyE : busySum σ ≤ e.time := le_trans h.busyNow hnowe
      cases hke : e.kind with
      | srcInit =>
        obtain ⟨hsbn, hcsrc⟩ := src_case_facts h.srcTok1 hsplit (by rw [hke]; rfl)
        have hcrest : rest.countP (fun x => x.kind.isSrc) = 0 := by rw [hrest]; exact hcsrc
        have hsrcI0 : σ.srcI = 0 := h.srcInit0 e hmem (by rw [hke])
        have hanyσ : σ.events.any
            (fun x => x.kind == EvKind.srcInit || x.kind == EvKind.srcTimeout) = true :=
          List.any_eq_true.mpr ⟨e, hmem, by rw [hke]; rfl⟩
        simp only [handle, srcResume, SimState.sched]
        refine ⟨?_, hemax, h.mean0, h.mean1, h.mean2, h.busy0, h.busy1, h.busy2, ?_,
          ?_, ?_, ?_, ?_, ?_, ?_, ?_, h.logOK, h.logIds⟩
        · intro x hx
          rcases List.mem_append.mp hx with hr | hn
          · exact hrestT x hr
          · have h5 : (0 : ℚ) ≤ ARRIVAL_MEAN * exps σ.rnd :=
              mul_nonneg (by norm_num [ARRIVAL_MEAN]) (he σ.rnd)
            simp only [List.mem_singleton] at hn
            rw [hn]
            simpa using h5
        · exact hbusyE
        · have h1 := h.flowTok1
          rw [flowTok, hsplit] at h1
          rw [flowTok, hrest]
          simp only [List.countP_append, List.countP_cons, hke, EvKind.isFlow,
            Bool.false_eq_true, if_false, if_true, List.countP_nil] at h1 ⊢
          omega
        · have h1 := h.srcTok1
          rw [srcTok, hsplit] at h1
          rw [srcTok, hrest]
          simp only [List.countP_append, List.countP_cons, hke, EvKind.isSrc,
            Bool.false_eq_true, if_false, if_true, List.countP_nil, hsbn,
            Option.isSome_none] at h1 ⊢
          omega
        · intro x hx hxk
          rcases List.mem_append.mp hx with hr | hn
          · have := countP_zero_not hcrest hr
            rw [hxk] at this
            simp [EvKind.isSrc] at this
          · simp only [List.mem_singleton] at hn
            rw [hn] at hxk
            simp at hxk
        · intro x hx _
          exact Nat.succ_le_succ (Nat.zero_le _)
        · have hc := h.conserve
          simp only [flowHeld, srcPend, created] at hc ⊢
          rw [hsplit] at hc
          rw [hrest]
          rw [List.filterMap_append, List.filterMap_cons] at hc
          simp only [hke, EvKind.heldId, hsrcI0, List.any_append, List.any_cons,
            List.any_nil, List.filterMap_append, List.filterMap_cons,
            List.filterMap_nil] at hc ⊢
          simp at hc ⊢
          simpa using hc
        · intro x hx
          rcases List.mem_append.mp hx with hr | hn
          · exact EvWF_mono rfl rfl (h.evWF x (hmemR x hr))
          · simp only [List.mem_singleton] at hn
            rw [hn]
            simp [EvWF]
        · intro b hb
          exact FlowBlkWF_mono rfl rfl (h.blkWF b hb)
      | resRelease j =>
        simp only [handle]
        refine ⟨fun x hx => hrestT x hx, hemax, h.mean0, h.mean1, h.mean2, h.busy0, h.busy1,
          h.busy2, hbusyE, ?_, ?_, ?_, ?_, ?_, ?_, ?_, h.logOK, h.logIds⟩
        · have h1 := h.flowTok1
          rw [flowTok, hsplit] at h1
          rw [flowTok, hrest]
          simp only [List.countP_append, List.countP_cons, hke, EvKind.isFlow,
            Bool.false_eq_true, if_false, if_true, List.countP_nil] at h1 ⊢
          omega
        · have h1 := h.srcTok1
          rw [srcTok, hsplit] at h1
          rw [srcTok, hrest]
          simp only [List.countP_append, List.countP_cons, hke, EvKind.isSrc,
            Bool.false_eq_true, if_false, if_true, List.countP_nil] at h1 ⊢
          omega
        · intro x hx hxk
          exact h.srcInit0 x (hmemR x hx) hxk
        · intro x hx hxk
          exact h.srcTimeout1 x (hmemR x hx) hxk
        · have hc := h.conserve
          simp only [flowHeld, srcPend, created] at hc ⊢
          rw [hsplit] at hc
          rw [hrest]
          rw [List.filterMap_append, List.filterMap_cons] at hc
          rw [List.filterMap_append]
          simp only [hke, EvKind.heldId] at hc
          rw [← @any_srcLoop_erase l₁ l₂ e (by rw [hke]; rfl)] at hc
          rw [List.any_append] at hc ⊢
          simpa using hc
        · intro x hx
          exact EvWF_mono rfl rfl (h.evWF x (hmemR x hx))
        · intro b hb
          exact FlowBlkWF_mono rfl rfl (h.blkWF b hb)
      | flowInit =>
        obtain ⟨hfbn, ⟨hc1, hc2⟩, hm1, hm2⟩ := flow_case_facts h.flowTok1 hsplit
          (by rw [hke]; rfl)
        have hcr : rest.countP (fun x => x.kind.isFlow) = 0 := by
          rw [hrest, List.countP_append]; omega
        simp only [EvWF, hke] at hewf
        simp only [handle, flowIssueGet, SimState.sched]
        rcases hq01 : σ.q01 with _ | ⟨p, q01t⟩
        · refine ⟨fun x hx => hrestT x hx, hemax, h.mean0, h.mean1, h.mean2, h.busy0,
            h.busy1, h.busy2, hbusyE, ?_, ?_, ?_, ?_, ?_, ?_, ?_, h.logOK, h.logIds⟩
          · have h1 := h.flowTok1
            rw [flowTok, hsplit] at h1
            rw [flowTok]
            simp only [hrest, List.countP_append, List.countP_cons, List.countP_nil, hke,
              EvKind.isFlow, Bool.false_eq_true, if_false, if_true, Option.isSome_none,
              Option.isSome_some, hfbn] at h1 ⊢
            omega
          · have h1 := h.srcTok1
            rw [srcTok, hsplit] at h1
            rw [srcTok]
            simp only [hrest, List.countP_append, List.countP_cons, List.countP_nil, hke,
              EvKind.isSrc, Bool.false_eq_true, if_false, if_true, Option.isSome_none,
              Option.isSome_some] at h1 ⊢
            omega
          · intro x hx hxk
            exact h.srcInit0 x (hmemR x hx) hxk
          · intro x hx hxk
            exact h.srcTimeout1 x (hmemR x hx) hxk
          · have hc := h.conserve
            simp only [flowHeld, srcPend, created] at hc ⊢
            rw [hsplit, hq01] at hc
            rw [hrest]
            simp only [List.filterMap_append, List.filterMap_cons, List.filterMap_nil,
              hke, EvKind.heldId, List.any_append, List.any_cons, List.any_nil,
              hm1, hm2, hfbn, FlowBlk.heldId] at hc ⊢
            simpa using hc
          · intro x hx
            exact EvWF_nonflow (countP_zero_not hcr hx)
          · intro b hb
            simp only [Option.some.injEq] at hb
            rw [← hb]
            simpa [FlowBlkWF] using hewf
        · refine ⟨?_, hemax, h.mean0, h.mean1, h.mean2, h.busy0, h.busy1, h.busy2,
            hbusyE, ?_, ?_, ?_, ?_, ?_, ?_, ?_, h.logOK, h.logIds⟩
          · intro x hx
            simp only [List.mem_append, List.mem_singleton] at hx
            rcases hx with hr | rfl
            · exact hrestT x hr
            · exact le_refl _
          · have h1 := h.flowTok1
            rw [flowTok, hsplit] at h1
            rw [flowTok]
            simp only [hrest, List.countP_append, List.countP_cons, List.countP_nil, hke,
              EvKind.isFlow, Bool.false_eq_true, if_false, if_true, Option.isSome_none,
              Option.isSome_some, hfbn] at h1 ⊢
            omega
          · have h1 := h.srcTok1
            rw [srcTok, hsplit] at h1
            rw [srcTok]
            simp only [hrest, List.countP_append, List.countP_cons, List.countP_nil, hke,
              EvKind.isSrc, Bool.false_eq_true, if_false, if_true, Option.isSome_none,
              Option.isSome_some] at h1 ⊢
            omega
          · intro x hx hxk
            simp only [List.mem_append, List.mem_singleton] at hx
            rcases hx with hr | rfl
            · exact h.srcInit0 x (hmemR x hr) hxk
            · simp at hxk
          · intro x hx hxk
            simp only [List.mem_append, List.mem_singleton] at hx
            rcases hx with hr | rfl
            · exact h.srcTimeout1 x (hmemR x hr) hxk
            · simp at hxk
          · have hc := h.conserve
            simp only [flowHeld, srcPend, created] at hc ⊢
            rw [hsplit, hq01] at hc
            rw [hrest]
            simp only [List.filterMap_append, List.filterMap_cons, List.filterMap_nil,
              hke, EvKind.heldId, List.any_append, List.any_cons, List.any_nil,
              hm1, hm2, hfbn, FlowBlk.heldId] at hc ⊢
            simpa using hc
          · intro x hx
            simp only [List.mem_append, List.mem_singleton] at hx
            rcases hx with hr | rfl
            · exact EvWF_nonflow (countP_zero_not hcr hr)
            · simpa [EvWF] using hewf
          · intro b hb
            simp [hfbn] at hb
      | srcTimeout =>
        obtain ⟨hsbn, hcsrc⟩ := src_case_facts h.srcTok1 hsplit (by rw [hke]; rfl)
        have hcrest : rest.countP (fun x => x.kind.isSrc) = 0 := by
          rw [hrest]; exact hcsrc
        have hsrcI1 : 1 ≤ σ.srcI := h.srcTimeout1 e hmem (by rw [hke])
        have hanyR : rest.any
            (fun x => x.kind == EvKind.srcInit || x.kind == EvKind.srcTimeout) = false :=
          any_srcLoop_zero hcrest
        simp only [handle, SimState.sched]
        by_cases hcap : (σ.q01.length : ℤ) < σ.cap01
        · rw [if_pos hcap]
          refine ⟨?_, hemax, h.mean0, h.mean1, h.mean2, h.busy0, h.busy1, h.busy2,
            hbusyE, ?_, ?_, ?_, ?_, ?_, ?_, ?_, h.logOK, h.logIds⟩
          · intro x hx
            simp only [List.mem_append, List.mem_singleton] at hx
            rcases hx with hr | rfl
            · exact hrestT x hr
            · exact le_refl _
          · have h1 := h.flowTok1
            rw [flowTok, hsplit] at h1
            rw [flowTok]
            simp only [hrest, List.countP_append, List.countP_cons, List.countP_nil, hke,
              EvKind.isFlow, Bool.false_eq_true, if_false, if_true, Option.isSome_none,
              Option.isSome_some] at h1 ⊢
            omega
          · have h1 := h.srcTok1
            rw [srcTok, hsplit] at h1
            rw [srcTok]
            simp only [hrest, List.countP_append, List.countP_cons, List.countP_nil, hke,
              EvKind.isSrc, Bool.false_eq_true, if_false, if_true, Option.isSome_none,
              Option.isSome_some, hsbn] at h1 ⊢
            omega
          · intro x hx hxk
            simp only [List.mem_append, List.mem_singleton] at hx
            rcases hx with hr | rfl
            · have := countP_zero_not hcrest hr
              rw [hxk] at this
              simp [EvKind.isSrc] at this
            · simp at hxk
          · intro x hx hxk
            simp only [List.mem_append, List.mem_singleton] at hx
            rcases hx with hr | rfl
            · have := countP_zero_not hcrest hr
              rw [hxk] at this
              simp [EvKind.isSrc] at this
            · simp at hxk
          · have hanyT : (l₁ ++ e :: l₂).any
                (fun x => x.kind == EvKind.srcInit || x.kind == EvKind.srcTimeout) = true := by
              simp [List.any_append, List.any_cons, hke]
            have hany1 : l₁.any
                (fun x => x.kind == EvKind.srcInit || x.kind == EvKind.srcTimeout) = false := by
              refine any_srcLoop_zero ?_
              have := hcsrc
              rw [List.countP_append] at this
              omega
            have hany2 : l₂.any
                (fun x => x.kind == EvKind.srcInit || x.kind == EvKind.srcTimeout) = false := by
              refine any_srcLoop_zero ?_
              have := hcsrc
              rw [List.countP_append] at this
              omega
            have hc := h.conserve
            simp only [flowHeld, srcPend, created] at hc ⊢
            rw [hsplit] at hc
            rw [hrest]
            simp only [hanyT, if_true, List.filterMap_append, List.filterMap_cons,
              List.filterMap_nil, hke, EvKind.heldId, List.any_append, List.any_cons,
              List.any_nil, hsbn, hany1, hany2, Bool.false_eq_true, if_false, Bool.false_or,
              Bool.or_false] at hc ⊢
            simp at hc ⊢
            rw [← range'_sub_concat hsrcI1, ← hc]
            simp
          · intro x hx
            simp only [List.mem_append, List.mem_singleton] at hx
            rcases hx with hr | rfl
            · exact EvWF_mono rfl rfl (h.evWF x (hmemR x hr))
            · simp [EvWF]
          · intro b hb
            exact FlowBlkWF_mono rfl rfl (h.blkWF b hb)
        · rw [if_neg hcap]
          refine ⟨fun x hx => hrestT x hx, hemax, h.mean0, h.mean1, h.mean2, h.busy0,
            h.busy1, h.busy2, hbusyE, ?_, ?_, ?_, ?_, ?_, ?_, ?_, h.logOK, h.logIds⟩
          · have h1 := h.flowTok1
            rw [flowTok, hsplit] at h1
            rw [flowTok]
            simp only [hrest, List.countP_append, List.countP_cons, List.countP_nil, hke,
              EvKind.isFlow, Bool.false_eq_true, if_false, if_true, Option.isSome_none,
              Option.isSome_some] at h1 ⊢
            omega
          · have h1 := h.srcTok1
            rw [srcTok, hsplit] at h1
            rw [srcTok]
            simp only [hrest, List.countP_append, List.countP_cons, List.countP_nil, hke,
              EvKind.isSrc, Bool.false_eq_true, if_false, if_true, Option.isSome_none,
              Option.isSome_some, hsbn] at h1 ⊢
            omega
          · intro x hx hxk
            have := countP_zero_not hcrest hx
            rw [hxk] at this
            simp [EvKind.isSrc] at this
          · intro x hx hxk
            have := countP_zero_not hcrest hx
            rw [hxk] at this
            simp [EvKind.isSrc] at this
          · have hanyT : (l₁ ++ e :: l₂).any
                (fun x => x.kind == EvKind.srcInit || x.kind == EvKind.srcTimeout) = true := by
              simp [List.any_append, List.any_cons, hke]
            have hany1 : l₁.any
                (fun x => x.kind == EvKind.srcInit || x.kind == EvKind.srcTimeout) = false := by
              refine any_srcLoop_zero ?_
              have := hcsrc
              rw [List.countP_append] at this
              omega
            have hany2 : l₂.any
                (fun x => x.kind == EvKind.srcInit || x.kind == EvKind.srcTimeout) = false := by
              refine any_srcLoop_zero ?_
              have := hcsrc
              rw [List.countP_append] at this
              omega
            have hc := h.conserve
            simp only [flowHeld, srcPend, created] at hc ⊢
            rw [hsplit] at hc
            rw [hrest]
            simp only [hanyT, if_true, List.filterMap_append, List.filterMap_cons,
              List.filterMap_nil, hke, EvKind.heldId, List.any_append, List.any_cons,
              List.any_nil, hsbn, hany1, hany2, Bool.false_eq_true, if_false, Bool.false_or,
              Bool.or_false] at hc ⊢
            simp at hc ⊢
            rw [← range'_sub_concat hsrcI1, ← hc]
            simp
          · intro x hx
            exact EvWF_mono rfl rfl (h.evWF x (hmemR x hx))
          · intro b hb
            exact FlowBlkWF_mono rfl rfl (h.blkWF b hb)
      | srcPutDone =>
        obtain ⟨hsbn, hcsrc⟩ := src_case_facts h.srcTok1 hsplit (by rw [hke]; rfl)
        have hcrest : rest.countP (fun x => x.kind.isSrc) = 0 := by
          rw [hrest]; exact hcsrc
        simp only [handle, srcResume, wakeQ01Get, SimState.sched]
        by_cases hfb : σ.flowBlk = some FlowBlk.waitQ01
        · rw [if_pos (by simpa using hfb)]
          have hq12e : σ.q12 = [] := h.blkWF FlowBlk.waitQ01 hfb
          have hfcnt : σ.events.countP (fun x => x.kind.isFlow) = 0 :=
            flow_token_blk h.flowTok1 hfb
          have hfcr : rest.countP (fun x => x.kind.isFlow) = 0 := by
            rw [hsplit, List.countP_append, List.countP_cons] at hfcnt
            rw [hrest, List.countP_append]
            omega
          have hfm1 : l₁.filterMap (fun x => x.kind.heldId) = [] := by
            rw [hsplit, List.countP_append, List.countP_cons] at hfcnt
            exact filterMap_heldId_nil (by omega)
          have hfm2 : l₂.filterMap (fun x => x.kind.heldId) = [] := by
            rw [hsplit, List.countP_append, List.countP_cons] at hfcnt
            exact filterMap_heldId_nil (by omega)
          rcases hq01 : σ.q01 with _ | ⟨p, q01t⟩
          · refine ⟨?_, hemax, h.mean0, h.mean1, h.mean2, h.busy0, h.busy1, h.busy2,
              hbusyE, ?_, ?_, ?_, ?_, ?_, ?_, ?_, h.logOK, h.logIds⟩
            · intro x hx
              simp only [List.mem_append, List.mem_singleton] at hx
              rcases hx with hr | rfl
              · exact hrestT x hr
              · have h5 : (0 : ℚ) ≤ ARRIVAL_MEAN * exps σ.rnd :=
                  mul_nonneg (by norm_num [ARRIVAL_MEAN]) (he σ.rnd)
                simpa using h5
            · have h1 := h.flowTok1
              rw [flowTok, hsplit] at h1
              rw [flowTok]
              simp only [hrest, List.countP_append, List.countP_cons, List.countP_nil, hke,
                EvKind.isFlow, Bool.false_eq_true, if_false, if_true, Option.isSome_none,
                Option.isSome_some, hfb] at h1 ⊢
              omega
            · have h1 := h.srcTok1
              rw [srcTok, hsplit] at h1
              rw [srcTok]
              simp only [hrest, List.countP_append, List.countP_cons, List.countP_nil, hke,
                EvKind.isSrc, Bool.false_eq_true, if_false, if_true, Option.isSome_none,
                Option.isSome_some, hsbn] at h1 ⊢
              omega
            · intro x hx hxk
              simp only [List.mem_append, List.mem_singleton] at hx
              rcases hx with hr | rfl
              · have := countP_zero_not hcrest hr
                rw [hxk] at this
                simp [EvKind.isSrc] at this
              · simp at hxk
            · intro x hx _
              exact Nat.succ_le_succ (Nat.zero_le _)
            · have hany1 : l₁.any
                  (fun x => x.kind == EvKind.srcInit || x.kind == EvKind.srcTimeout) = false := by
                refine any_srcLoop_zero ?_
                have := hcsrc
                rw [List.countP_append] at this
                omega
              have hany2 : l₂.any
                  (fun x => x.kind == EvKind.srcInit || x.kind == EvKind.srcTimeout) = false := by
                refine any_srcLoop_zero ?_
                have := hcsrc
                rw [List.countP_append] at this
                omega
              have hc := h.conserve
              simp only [flowHeld, srcPend, created] at hc ⊢
              rw [hsplit] at hc
              rw [hrest]
              simp only [List.filterMap_append, List.filterMap_cons, List.filterMap_nil, hke,
                EvKind.heldId, List.any_append, List.any_cons, List.any_nil, hsbn, hany1, hany2,
                Bool.false_eq_true, if_false, Bool.false_or, Bool.or_false, hq01, hfb, FlowBlk.heldId] at hc ⊢
              simp at hc ⊢
              simpa using hc
            · intro x hx
              simp only [List.mem_append, List.mem_singleton] at hx
              rcases hx with hr | rfl
              · exact EvWF_mono rfl rfl (h.evWF x (hmemR x hr))
              · simp [EvWF]
            · intro b hb
              rw [hfb] at hb
              simp only [Option.some.injEq] at hb
              rw [← hb]
              simpa [FlowBlkWF] using hq12e
          · refine ⟨?_, hemax, h.mean0, h.mean1, h.mean2, h.busy0, h.busy1, h.busy2,
              hbusyE, ?_, ?_, ?_, ?_, ?_, ?_, ?_, h.logOK, h.logIds⟩
            · intro x hx
              simp only [List.mem_append, List.mem_singleton] at hx
              rcases hx with (hr | rfl) | rfl
              · exact hrestT x hr
              · exact le_refl _
              · have h5 : (0 : ℚ) ≤ ARRIVAL_MEAN * exps σ.rnd :=
                  mul_nonneg (by norm_num [ARRIVAL_MEAN]) (he σ.rnd)
                simpa using h5
            · have h1 := h.flowTok1
              rw [flowTok, hsplit] at h1
              rw [flowTok]
              simp only [hrest, List.countP_append, List.countP_cons, List.countP_nil, hke,
                EvKind.isFlow, Bool.false_eq_true, if_false, if_true, Option.isSome_none,
                Option.isSome_some, hfb] at h1 ⊢
              omega
            · have h1 := h.srcTok1
              rw [srcTok, hsplit] at h1
              rw [srcTok]
              simp only [hrest, List.countP_append, List.countP_cons, List.countP_nil, hke,
                EvKind.isSrc, Bool.false_eq_true, if_false, if_true, Option.isSome_none,
                Option.isSome_some, hsbn] at h1 ⊢
              omega
            · intro x hx hxk
              simp only [List.mem_append, List.mem_singleton] at hx
              rcases hx with (hr | rfl) | rfl
              · have := countP_zero_not hcrest hr
                rw [hxk] at this
                simp [EvKind.isSrc] at this
              · simp at hxk
              · simp at hxk
            · intro x hx _
              exact Nat.succ_le_succ (Nat.zero_le _)
            · have hany1 : l₁.any
                  (fun x => x.kind == EvKind.srcInit || x.kind == EvKind.srcTimeout) = false := by
                refine any_srcLoop_zero ?_
                have := hcsrc
                rw [List.countP_append] at this
                omega
              have hany2 : l₂.any
                  (fun x => x.kind == EvKind.srcInit || x.kind == EvKind.srcTimeout) = false := by
                refine any_srcLoop_zero ?_
                have := hcsrc
                rw [List.countP_append] at this
                omega
              have hc := h.conserve
              simp only [flowHeld, srcPend, created] at hc ⊢
              rw [hsplit] at hc
              rw [hrest]
              simp only [List.filterMap_append, List.filterMap_cons, List.filterMap_nil, hke,
                EvKind.heldId, List.any_append, List.any_cons, List.any_nil, hsbn, hany1, hany2,
                Bool.false_eq_true, if_false, Bool.false_or, Bool.or_false, hq01, hfb, FlowBlk.heldId, hfm1, hfm2] at hc ⊢
              simp at hc ⊢
              simpa using hc
            · intro x hx
              simp only [List.mem_append, List.mem_singleton] at hx
              rcases hx with (hr | rfl) | rfl
              · exact EvWF_mono rfl rfl (h.evWF x (hmemR x hr))
              · simpa [EvWF] using hq12e
              · simp [EvWF]
            · intro b hb
              simp at hb
        · rw [if_neg (by simpa using hfb)]
          refine ⟨?_, hemax, h.mean0, h.mean1, h.mean2, h.busy0, h.busy1, h.busy2,
            hbusyE, ?_, ?_, ?_, ?_, ?_, ?_, ?_, h.logOK, h.logIds⟩
          · intro x hx
            simp only [List.mem_append, List.mem_singleton] at hx
            rcases hx with hr | rfl
            · exact hrestT x hr
            · have h5 : (0 : ℚ) ≤ ARRIVAL_MEAN * exps σ.rnd :=
                mul_nonneg (by norm_num [ARRIVAL_MEAN]) (he σ.rnd)
              simpa using h5
          · have h1 := h.flowTok1
            rw [flowTok, hsplit] at h1
            rw [flowTok]
            simp only [hrest, List.countP_append, List.countP_cons, List.countP_nil, hke,
              EvKind.isFlow, Bool.false_eq_true, if_false, if_true, Option.isSome_none,
              Option.isSome_some] at h1 ⊢
            omega
          · have h1 := h.srcTok1
            rw [srcTok, hsplit] at h1
            rw [srcTok]
            simp only [hrest, List.countP_append, List.countP_cons, List.countP_nil, hke,
              EvKind.isSrc, Bool.false_eq_true, if_false, if_true, Option.isSome_none,
              Option.isSome_some, hsbn] at h1 ⊢
            omega
          · intro x hx hxk
            simp only [List.mem_append, List.mem_singleton] at hx
            rcases hx with hr | rfl
            · have := countP_zero_not hcrest hr
              rw [hxk] at this
              simp [EvKind.isSrc] at this
            · simp at hxk
          · intro x hx _
            exact Nat.succ_le_succ (Nat.zero_le _)
          · have hany1 : l₁.any
                (fun x => x.kind == EvKind.srcInit || x.kind == EvKind.srcTimeout) = false := by
              refine any_srcLoop_zero ?_
              have := hcsrc
              rw [List.countP_append] at this
              omega
            have hany2 : l₂.any
                (fun x => x.kind == EvKind.srcInit || x.kind == EvKind.srcTimeout) = false := by
              refine any_srcLoop_zero ?_
              have := hcsrc
              rw [List.countP_append] at this
              omega
            have hc := h.conserve
            simp only [flowHeld, srcPend, created] at hc ⊢
            rw [hsplit] at hc
            rw [hrest]
            simp only [List.filterMap_append, List.filterMap_cons, List.filterMap_nil, hke,
              EvKind.heldId, List.any_append, List.any_cons, List.any_nil, hsbn, hany1, hany2,
              Bool.false_eq_true, if_false, Bool.false_or, Bool.or_false] at hc ⊢
            simp at hc ⊢
            simpa using hc
          · intro x hx
            simp only [List.mem_append, List.mem_singleton] at hx
            rcases hx with hr | rfl
            · exact EvWF_mono rfl rfl (h.evWF x (hmemR x hr))
            · simp [EvWF]
          · intro b hb
            exact FlowBlkWF_mono rfl rfl (h.blkWF b hb)
      | flowGotPart p =>
        obtain ⟨hfbn, ⟨hc1, hc2⟩, hm1, hm2⟩ := flow_case_facts h.flowTok1 hsplit
          (by rw [hke]; rfl)
        have hcr : rest.countP (fun x => x.kind.isFlow) = 0 := by
          rw [hrest, List.countP_append]; omega
        simp only [EvWF, hke] at hewf
        simp only [handle, wakeQ01Put, requestRes0, SimState.sched]
        rcases hsb : σ.srcBlk with _ | ⟨item⟩
        · by_cases hres : σ.res0 = true
          · rw [if_pos hres]
            refine ⟨fun x hx => hrestT x hx, hemax, h.mean0, h.mean1, h.mean2, h.busy0, h.busy1, h.busy2,
              hbusyE, ?_, ?_, ?_, ?_, ?_, ?_, ?_, h.logOK, h.logIds⟩
            · have h1 := h.flowTok1
              rw [flowTok, hsplit] at h1
              rw [flowTok]
              simp only [hrest, List.countP_append, List.countP_cons, List.countP_nil, hke,
                EvKind.isFlow, Bool.false_eq_true, if_false, if_true, Option.isSome_none,
                Option.isSome_some, hfbn, hsb] at h1 ⊢
              omega
            · have h1 := h.srcTok1
              rw [srcTok, hsplit] at h1
              rw [srcTok]
              simp only [hrest, List.countP_append, List.countP_cons, List.countP_nil, hke,
                EvKind.isSrc, Bool.false_eq_true, if_false, if_true, Option.isSome_none,
                Option.isSome_some, hsb] at h1 ⊢
              omega
            · intro x hx hxk
              exact h.srcInit0 x (hmemR x hx) hxk
            · intro x hx hxk
              exact h.srcTimeout1 x (hmemR x hx) hxk
            · have hc := h.conserve
              simp only [flowHeld, srcPend, created] at hc ⊢
              rw [hsplit] at hc
              rw [hrest]
              simp only [List.filterMap_append, List.filterMap_cons, List.filterMap_nil] at hc ⊢
              simp only [hm1, hm2] at hc ⊢
              simp only [hke] at hc
              simp only [hke, EvKind.heldId, FlowBlk.heldId, hfbn, Option.none_bind, Option.some_bind,
                Option.toList_some, Option.toList_none, List.any_append, List.any_cons, List.any_nil,
                Bool.false_or, Bool.or_false,
                show ((EvKind.flowGotPart p == EvKind.srcInit) || (EvKind.flowGotPart p == EvKind.srcTimeout)) = false from rfl, hsb, Option.map_some', Option.map_none'] at hc ⊢
              simp only [List.map_append, List.map_cons, List.map_nil, List.append_assoc,
                List.append_nil, List.nil_append, List.cons_append, List.singleton_append] at hc ⊢
              exact hc
            · intro x hx
              exact EvWF_nonflow (countP_zero_not hcr hx)
            · intro b hb
              simp only [Option.some.injEq] at hb
              rw [← hb]
              simpa [FlowBlkWF] using hewf
          · rw [if_neg hres]
            refine ⟨?_, hemax, h.mean0, h.mean1, h.mean2, h.busy0, h.busy1, h.busy2,
              hbusyE, ?_, ?_, ?_, ?_, ?_, ?_, ?_, h.logOK, h.logIds⟩
            · intro x hx
              simp only [List.mem_append, List.mem_singleton] at hx
              rcases hx with hr | rfl
              · exact hrestT x hr
              · exact le_refl _
            · have h1 := h.flowTok1
              rw [flowTok, hsplit] at h1
              rw [flowTok]
              simp only [hrest, List.countP_append, List.countP_cons, List.countP_nil, hke,
                EvKind.isFlow, Bool.false_eq_true, if_false, if_true, Option.isSome_none,
                Option.isSome_some, hfbn, hsb] at h1 ⊢
              omega
            · have h1 := h.srcTok1
              rw [srcTok, hsplit] at h1
              rw [srcTok]
              simp only [hrest, List.countP_append, List.countP_cons, List.countP_nil, hke,
                EvKind.isSrc, Bool.false_eq_true, if_false, if_true, Option.isSome_none,
                Option.isSome_some, hsb] at h1 ⊢
              omega
            · intro x hx hxk
              simp only [List.mem_append, List.mem_singleton] at hx
              rcases hx with hr | rfl
              · exact h.srcInit0 x (hmemR x hr) hxk
              · simp at hxk
            · intro x hx hxk
              simp only [List.mem_append, List.mem_singleton] at hx
              rcases hx with hr | rfl
              · exact h.srcTimeout1 x (hmemR x hr) hxk
              · simp at hxk
            · have hc := h.conserve
              simp only [flowHeld, srcPend, created] at hc ⊢
              rw [hsplit] at hc
              rw [hrest]
              simp only [List.filterMap_append, List.filterMap_cons, List.filterMap_nil] at hc ⊢
              simp only [hm1, hm2] at hc ⊢
              simp only [hke] at hc
              simp only [hke, EvKind.heldId, FlowBlk.heldId, hfbn, Option.none_bind, Option.some_bind,
                Option.toList_some, Option.toList_none, List.any_append, List.any_cons, List.any_nil,
                Bool.false_or, Bool.or_false,
                show ((EvKind.flowGotPart p == EvKind.srcInit) || (EvKind.flowGotPart p == EvKind.srcTimeout)) = false from rfl,
                show ((EvKind.flowReq0 p == EvKind.srcInit) || (EvKind.flowReq0 p == EvKind.srcTimeout)) = false from rfl, hsb, Option.map_some', Option.map_none'] at hc ⊢
              simp only [List.map_append, List.map_cons, List.map_nil, List.append_assoc,
                List.append_nil, List.nil_append, List.cons_append, List.singleton_append] at hc ⊢
              exact hc
            · intro x hx
              simp only [List.mem_append, List.mem_singleton] at hx
              rcases hx with hr | rfl
              · exact EvWF_nonflow (countP_zero_not hcr hr)
              · simpa [EvWF] using hewf
            · intro b hb
              simp [hfbn] at hb
        · simp only []
          by_cases hcap : (σ.q01.length : ℤ) < σ.cap01
          · rw [if_pos hcap]
            simp only []
            by_cases hres : σ.res0 = true
            · rw [if_pos hres]
              refine ⟨?_, hemax, h.mean0, h.mean1, h.mean2, h.busy0, h.busy1, h.busy2,
                hbusyE, ?_, ?_, ?_, ?_, ?_, ?_, ?_, h.logOK, h.logIds⟩
              · intro x hx
                simp only [List.mem_append, List.mem_singleton] at hx
                rcases hx with hr | rfl
                · exact hrestT x hr
                · exact le_refl _
              · have h1 := h.flowTok1
                rw [flowTok, hsplit] at h1
                rw [flowTok]
                simp only [hrest, List.countP_append, List.countP_cons, List.countP_nil, hke,
                  EvKind.isFlow, Bool.false_eq_true, if_false, if_true, Option.isSome_none,
                  Option.isSome_some, hfbn, hsb] at h1 ⊢
                omega
              · have h1 := h.srcTok1
                rw [srcTok, hsplit] at h1
                rw [srcTok]
                simp only [hrest, List.countP_append, List.countP_cons, List.countP_nil, hke,
                  EvKind.isSrc, Bool.false_eq_true, if_false, if_true, Option.isSome_none,
                  Option.isSome_some, hsb] at h1 ⊢
                omega
              · intro x hx hxk
                simp only [List.mem_append, List.mem_singleton] at hx
                rcases hx with hr | rfl
                · exact h.srcInit0 x (hmemR x hr) hxk
                · simp at hxk
              · intro x hx hxk
                simp only [List.mem_append, List.mem_singleton] at hx
                rcases hx with hr | rfl
                · exact h.srcTimeout1 x (hmemR x hr) hxk
                · simp at hxk
              · have hc := h.conserve
                simp only [flowHeld, srcPend, created] at hc ⊢
                rw [hsplit] at hc
                rw [hrest]
                simp only [List.filterMap_append, List.filterMap_cons, List.filterMap_nil] at hc ⊢
                simp only [hm1, hm2] at hc ⊢
                simp only [hke] at hc
                simp only [hke, EvKind.heldId, FlowBlk.heldId, hfbn, Option.none_bind, Option.some_bind,
                  Option.toList_some, Option.toList_none, List.any_append, List.any_cons, List.any_nil,
                  Bool.false_or, Bool.or_false,
                  show ((EvKind.flowGotPart p == EvKind.srcInit) || (EvKind.flowGotPart p == EvKind.srcTimeout)) = false from rfl,
                  show ((EvKind.srcPutDone == EvKind.srcInit) || (EvKind.srcPutDone == EvKind.srcTimeout)) = false from rfl, hsb, Option.map_some', Option.map_none'] at hc ⊢
                simp only [List.map_append, List.map_cons, List.map_nil, List.append_assoc,
                  List.append_nil, List.nil_append, List.cons_append, List.singleton_append] at hc ⊢
                exact hc
              · intro x hx
                simp only [List.mem_append, List.mem_singleton] at hx
                rcases hx with hr | rfl
                · exact EvWF_nonflow (countP_zero_not hcr hr)
                · simp [EvWF]
              · intro b hb
                simp only [Option.some.injEq] at hb
                rw [← hb]
                simpa [FlowBlkWF] using hewf
            · rw [if_neg hres]
              refine ⟨?_, hemax, h.mean0, h.mean1, h.mean2, h.busy0, h.busy1, h.busy2,
                hbusyE, ?_, ?_, ?_, ?_, ?_, ?_, ?_, h.logOK, h.logIds⟩
              · intro x hx
                simp only [List.mem_append, List.mem_singleton] at hx
                rcases hx with (hr | rfl) | rfl
                · exact hrestT x hr
                · exact le_refl _
                · exact le_refl _
              · have h1 := h.flowTok1
                rw [flowTok, hsplit] at h1
                rw [flowTok]
                simp only [hrest, List.countP_append, List.countP_cons, List.countP_nil, hke,
                  EvKind.isFlow, Bool.false_eq_true, if_false, if_true, Option.isSome_none,
                  Option.isSome_some, hfbn, hsb] at h1 ⊢
                omega
              · have h1 := h.srcTok1
                rw [srcTok, hsplit] at h1
                rw [srcTok]
                simp only [hrest, List.countP_append, List.countP_cons, List.countP_nil, hke,
                  EvKind.isSrc, Bool.false_eq_true, if_false, if_true, Option.isSome_none,
                  Option.isSome_some, hsb] at h1 ⊢
                omega
              · intro x hx hxk
                simp only [List.mem_append, List.mem_singleton] at hx
                rcases hx with (hr | rfl) | rfl
                · exact h.srcInit0 x (hmemR x hr) hxk
                · simp at hxk
                · simp at hxk
              · intro x hx hxk
                simp only [List.mem_append, List.mem_singleton] at hx
                rcases hx with (hr | rfl) | rfl
                · exact h.srcTimeout1 x (hmemR x hr) hxk
                · simp at hxk
                · simp at hxk
              · have hc := h.conserve
                simp only [flowHeld, srcPend, created] at hc ⊢
                rw [hsplit] at hc
                rw [hrest]
                simp only [List.filterMap_append, List.filterMap_cons, List.filterMap_nil] at hc ⊢
                simp only [hm1, hm2] at hc ⊢
                simp only [hke] at hc
                simp only [hke, EvKind.heldId, FlowBlk.heldId, hfbn, Option.none_bind, Option.some_bind,
                  Option.toList_some, Option.toList_none, List.any_append, List.any_cons, List.any_nil,
                  Bool.false_or, Bool.or_false,
                  show ((EvKind.flowGotPart p == EvKind.srcInit) || (EvKind.flowGotPart p == EvKind.srcTimeout)) = false from rfl,
                  show ((EvKind.srcPutDone == EvKind.srcInit) || (EvKind.srcPutDone == EvKind.srcTimeout)) = false from rfl,
                  show ((EvKind.flowReq0 p == EvKind.srcInit) || (EvKind.flowReq0 p == EvKind.srcTimeout)) = false from rfl, hsb, Option.map_some', Option.map_none'] at hc ⊢
                simp only [List.map_append, List.map_cons, List.map_nil, List.append_assoc,
                  List.append_nil, List.nil_append, List.cons_append, List.singleton_append] at hc ⊢
                exact hc
              · intro x hx
                simp only [List.mem_append, List.mem_singleton] at hx
                rcases hx with (hr | rfl) | rfl
                · exact EvWF_nonflow (countP_zero_not hcr hr)
                · simp [EvWF]
                · simpa [EvWF] using hewf
              · intro b hb
                simp [hfbn] at hb
          · rw [if_neg hcap]
            simp only []
            by_cases hres : σ.res0 = true
            · rw [if_pos hres]
              refine ⟨fun x hx => hrestT x hx, hemax, h.mean0, h.mean1, h.mean2, h.busy0, h.busy1, h.busy2,
                hbusyE, ?_, ?_, ?_, ?_, ?_, ?_, ?_, h.logOK, h.logIds⟩
              · have h1 := h.flowTok1
                rw [flowTok, hsplit] at h1
                rw [flowTok]
                simp only [hrest, List.countP_append, List.countP_cons, List.countP_nil, hke,
                  EvKind.isFlow, Bool.false_eq_true, if_false, if_true, Option.isSome_none,
                  Option.isSome_some, hfbn, hsb] at h1 ⊢
                omega
              · have h1 := h.srcTok1
                rw [srcTok, hsplit] at h1
                rw [srcTok]
                simp only [hrest, List.countP_append, List.countP_cons, List.countP_nil, hke,
                  EvKind.isSrc, Bool.false_eq_true, if_false, if_true, Option.isSome_none,
                  Option.isSome_some, hsb] at h1 ⊢
                omega
              · intro x hx hxk
                exact h.srcInit0 x (hmemR x hx) hxk
              · intro x hx hxk
                exact h.srcTimeout1 x (hmemR x hx) hxk
              · have hc := h.conserve
                simp only [flowHeld, srcPend, created] at hc ⊢
                rw [hsplit] at hc
                rw [hrest]
                simp only [List.filterMap_append, List.filterMap_cons, List.filterMap_nil] at hc ⊢
                simp only [hm1, hm2] at hc ⊢
                simp only [hke] at hc
                simp only [hke, EvKind.heldId, FlowBlk.heldId, hfbn, Option.none_bind, Option.some_bind,
                  Option.toList_some, Option.toList_none, List.any_append, List.any_cons, List.any_nil,
                  Bool.false_or, Bool.or_false,
                  show ((EvKind.flowGotPart p == EvKind.srcInit) || (EvKind.flowGotPart p == EvKind.srcTimeout)) = false from rfl, hsb, Option.map_some', Option.map_none'] at hc ⊢
                simp only [List.map_append, List.map_cons, List.map_nil, List.append_assoc,
                  List.append_nil, List.nil_append, List.cons_append, List.singleton_append] at hc ⊢
                exact hc
              · intro x hx
                exact EvWF_nonflow (countP_zero_not hcr hx)
              · intro b hb
                simp only [Option.some.injEq] at hb
                rw [← hb]
                simpa [FlowBlkWF] using hewf
            · rw [if_neg hres]
              refine ⟨?_, hemax, h.mean0, h.mean1, h.mean2, h.busy0, h.busy1, h.busy2,
                hbusyE, ?_, ?_, ?_, ?_, ?_, ?_, ?_, h.logOK, h.logIds⟩
              · intro x hx
                simp only [List.mem_append, List.mem_singleton] at hx
                rcases hx with hr | rfl
                · exact hrestT x hr
                · exact le_refl _
              · have h1 := h.flowTok1
                rw [flowTok, hsplit] at h1
                rw [flowTok]
                simp only [hrest, List.countP_append, List.countP_cons, List.countP_nil, hke,
                  EvKind.isFlow, Bool.false_eq_true, if_false, if_true, Option.isSome_none,
                  Option.isSome_some, hfbn, hsb] at h1 ⊢
                omega
              · have h1 := h.srcTok1
                rw [srcTok, hsplit] at h1
                rw [srcTok]
                simp only [hrest, List.countP_append, List.countP_cons, List.countP_nil, hke,
                  EvKind.isSrc, Bool.false_eq_true, if_false, if_true, Option.isSome_none,
                  Option.isSome_some, hsb] at h1 ⊢
                omega
              · intro x hx hxk
                simp only [List.mem_append, List.mem_singleton] at hx
                rcases hx with hr | rfl
                · exact h.srcInit0 x (hmemR x hr) hxk
                · simp at hxk
              · intro x hx hxk
                simp only [List.mem_append, List.mem_singleton] at hx
                rcases hx with hr | rfl
                · exact h.srcTimeout1 x (hmemR x hr) hxk
                · simp at hxk
              · have hc := h.conserve
                simp only [flowHeld, srcPend, created] at hc ⊢
                rw [hsplit] at hc
                rw [hrest]
                simp only [List.filterMap_append, List.filterMap_cons, List.filterMap_nil] at hc ⊢
                simp only [hm1, hm2] at hc ⊢
                simp only [hke] at hc
                simp only [hke, EvKind.heldId, FlowBlk.heldId, hfbn, Option.none_bind, Option.some_bind,
                  Option.toList_some, Option.toList_none, List.any_append, List.any_cons, List.any_nil,
                  Bool.false_or, Bool.or_false,
                  show ((EvKind.flowGotPart p == EvKind.srcInit) || (EvKind.flowGotPart p == EvKind.srcTimeout)) = false from rfl,
                  show ((EvKind.flowReq0 p == EvKind.srcInit) || (EvKind.flowReq0 p == EvKind.srcTimeout)) = false from rfl, hsb, Option.map_some', Option.map_none'] at hc ⊢
                simp only [List.map_append, List.map_cons, List.map_nil, List.append_assoc,
                  List.append_nil, List.nil_append, List.cons_append, List.singleton_append] at hc ⊢
                exact hc
              · intro x hx
                simp only [List.mem_append, List.mem_singleton] at hx
                rcases hx with hr | rfl
                · exact EvWF_nonflow (countP_zero_not hcr hr)
                · simpa [EvWF] using hewf
              · intro b hb
                simp [hfbn] at hb
      | flowReq0 p =>
        obtain ⟨hfbn, ⟨hc1, hc2⟩, hm1, hm2⟩ := flow_case_facts h.flowTok1 hsplit
          (by rw [hke]; rfl)
        have hcr : rest.countP (fun x => x.kind.isFlow) = 0 := by
          rw [hrest, List.countP_append]; omega
        simp only [EvWF, hke] at hewf
        simp only [handle, SimState.sched]
        refine ⟨?_, hemax, h.mean0, h.mean1, h.mean2, h.busy0, h.busy1, h.busy2,
          hbusyE, ?_, ?_, ?_, ?_, ?_, ?_, ?_, h.logOK, h.logIds⟩
        · intro x hx
          simp only [List.mem_append, List.mem_singleton] at hx
          rcases hx with hr | rfl
          · exact hrestT x hr
          · exact le_refl _
        · have h1 := h.flowTok1
          rw [flowTok, hsplit] at h1
          rw [flowTok]
          simp only [hrest, List.countP_append, List.countP_cons, List.countP_nil, hke,
            EvKind.isFlow, Bool.false_eq_true, if_false, if_true, Option.isSome_none,
            Option.isSome_some, hfbn] at h1 ⊢
          omega
        · have h1 := h.srcTok1
          rw [srcTok, hsplit] at h1
          rw [srcTok]
          simp only [hrest, List.countP_append, List.countP_cons, List.countP_nil, hke,
            EvKind.isSrc, Bool.false_eq_true, if_false, if_true, Option.isSome_none,
            Option.isSome_some] at h1 ⊢
          omega
        · intro x hx hxk
          simp only [List.mem_append, List.mem_singleton] at hx
          rcases hx with hr | rfl
          · exact h.srcInit0 x (hmemR x hr) hxk
          · simp at hxk
        · intro x hx hxk
          simp only [List.mem_append, List.mem_singleton] at hx
          rcases hx with hr | rfl
          · exact h.srcTimeout1 x (hmemR x hr) hxk
          · simp at hxk
        · have hc := h.conserve
          simp only [flowHeld, srcPend, created] at hc ⊢
          rw [hsplit] at hc
          rw [hrest]
          simp only [List.filterMap_append, List.filterMap_cons, List.filterMap_nil] at hc ⊢
          simp only [hm1, hm2] at hc ⊢
          simp only [hke] at hc
          simp only [hke, EvKind.heldId, FlowBlk.heldId, hfbn, Option.none_bind, Option.some_bind,
            Option.toList_some, Option.toList_none, List.any_append, List.any_cons, List.any_nil,
            Bool.false_or, Bool.or_false,
            show ((EvKind.flowReq0 p == EvKind.srcInit) || (EvKind.flowReq0 p == EvKind.srcTimeout)) = false from rfl,
            show ((EvKind.st0Init p e.time == EvKind.srcInit) || (EvKind.st0Init p e.time == EvKind.srcTimeout)) = false from rfl] at hc ⊢
          simp only [List.map_append, List.map_cons, List.map_nil, List.append_assoc,
            List.append_nil, List.nil_append, List.cons_append, List.singleton_append] at hc ⊢
          exact hc
        · intro x hx
          simp only [List.mem_append, List.mem_singleton] at hx
          rcases hx with hr | rfl
          · exact EvWF_nonflow (countP_zero_not hcr hr)
          · simp [EvWF, hewf]
        · intro b hb
          simp [hfbn] at hb
      | st0Init p tS =>
        obtain ⟨hfbn, ⟨hc1, hc2⟩, hm1, hm2⟩ := flow_case_facts h.flowTok1 hsplit
          (by rw [hke]; rfl)
        have hcr : rest.countP (fun x => x.kind.isFlow) = 0 := by
          rw [hrest, List.countP_append]; omega
        simp only [EvWF, hke] at hewf
        simp only [handle, SimState.sched]
        refine ⟨?_, hemax, h.mean0, h.mean1, h.mean2, h.busy0, h.busy1, h.busy2,
          hbusyE, ?_, ?_, ?_, ?_, ?_, ?_, ?_, h.logOK, h.logIds⟩
        · intro x hx
          simp only [List.mem_append, List.mem_singleton] at hx
          rcases hx with hr | rfl
          · exact hrestT x hr
          · have hpt : (0 : ℚ) ≤ σ.s0.meanProc * exps σ.rnd :=
              mul_nonneg h.mean0 (he σ.rnd)
            simpa using hpt
        · have h1 := h.flowTok1
          rw [flowTok, hsplit] at h1
          rw [flowTok]
          simp only [hrest, List.countP_append, List.countP_cons, List.countP_nil, hke,
            EvKind.isFlow, Bool.false_eq_true, if_false, if_true, Option.isSome_none,
            Option.isSome_some, hfbn] at h1 ⊢
          omega
        · have h1 := h.srcTok1
          rw [srcTok, hsplit] at h1
          rw [srcTok]
          simp only [hrest, List.countP_append, List.countP_cons, List.countP_nil, hke,
            EvKind.isSrc, Bool.false_eq_true, if_false, if_true, Option.isSome_none,
            Option.isSome_some] at h1 ⊢
          omega
        · intro x hx hxk
          simp only [List.mem_append, List.mem_singleton] at hx
          rcases hx with hr | rfl
          · exact h.srcInit0 x (hmemR x hr) hxk
          · simp at hxk
        · intro x hx hxk
          simp only [List.mem_append, List.mem_singleton] at hx
          rcases hx with hr | rfl
          · exact h.srcTimeout1 x (hmemR x hr) hxk
          · simp at hxk
        · have hc := h.conserve
          simp only [flowHeld, srcPend, created] at hc ⊢
          rw [hsplit] at hc
          rw [hrest]
          simp only [List.filterMap_append, List.filterMap_cons, List.filterMap_nil] at hc ⊢
          simp only [hm1, hm2] at hc ⊢
          simp only [hke] at hc
          simp only [hke, EvKind.heldId, FlowBlk.heldId, hfbn, Option.none_bind, Option.some_bind,
            Option.toList_some, Option.toList_none, List.any_append, List.any_cons, List.any_nil,
            Bool.false_or, Bool.or_false,
            show ((EvKind.st0Init p tS == EvKind.srcInit) || (EvKind.st0Init p tS == EvKind.srcTimeout)) = false from rfl,
            show ((EvKind.st0Timeout p tS (σ.s0.meanProc * exps σ.rnd) == EvKind.srcInit) || (EvKind.st0Timeout p tS (σ.s0.meanProc * exps σ.rnd) == EvKind.srcTimeout)) = false from rfl] at hc ⊢
          simp only [List.map_append, List.map_cons, List.map_nil, List.append_assoc,
            List.append_nil, List.nil_append, List.cons_append, List.singleton_append] at hc ⊢
          exact hc
        · intro x hx
          simp only [List.mem_append, List.mem_singleton] at hx
          rcases hx with hr | rfl
          · exact EvWF_nonflow (countP_zero_not hcr hr)
          · simp only [EvWF]
            refine ⟨by rw [hewf.1], mul_nonneg h.mean0 (he σ.rnd), ?_, hewf.2⟩
            have hbs : busySum σ ≤ tS := by rw [← hewf.1]; exact hbusyE
            simpa [busySum] using hbs
        · intro b hb
          simp [hfbn] at hb
      | st0Timeout p tS pt =>
        obtain ⟨hfbn, ⟨hc1, hc2⟩, hm1, hm2⟩ := flow_case_facts h.flowTok1 hsplit
          (by rw [hke]; rfl)
        have hcr : rest.countP (fun x => x.kind.isFlow) = 0 := by
          rw [hrest, List.countP_append]; omega
        simp only [EvWF, hke] at hewf
        simp only [handle, SimState.sched]
        refine ⟨?_, hemax, h.mean0, h.mean1, h.mean2, add_nonneg h.busy0 hewf.2.1, h.busy1, h.busy2, ?_, ?_, ?_, ?_, ?_, ?_, ?_, ?_,
          h.logOK, h.logIds⟩
        · intro x hx
          simp only [List.mem_append, List.mem_singleton] at hx
          rcases hx with hr | rfl
          · exact hrestT x hr
          · exact le_refl _
        · have h1 := hewf.2.2.1
          simp only [busySum] at h1 ⊢
          linarith [hewf.1, hewf.2.1]
        · have h1 := h.flowTok1
          rw [flowTok, hsplit] at h1
          rw [flowTok]
          simp only [hrest, List.countP_append, List.countP_cons, List.countP_nil, hke,
            EvKind.isFlow, Bool.false_eq_true, if_false, if_true, Option.isSome_none,
            Option.isSome_some, hfbn] at h1 ⊢
          omega
        · have h1 := h.srcTok1
          rw [srcTok, hsplit] at h1
          rw [srcTok]
          simp only [hrest, List.countP_append, List.countP_cons, List.countP_nil, hke,
            EvKind.isSrc, Bool.false_eq_true, if_false, if_true, Option.isSome_none,
            Option.isSome_some] at h1 ⊢
          omega
        · intro x hx hxk
          simp only [List.mem_append, List.mem_singleton] at hx
          rcases hx with hr | rfl
          · exact h.srcInit0 x (hmemR x hr) hxk
          · simp at hxk
        · intro x hx hxk
          simp only [List.mem_append, List.mem_singleton] at hx
          rcases hx with hr | rfl
          · exact h.srcTimeout1 x (hmemR x hr) hxk
          · simp at hxk
        · have hc := h.conserve
          simp only [flowHeld, srcPend, created] at hc ⊢
          rw [hsplit] at hc
          rw [hrest]
          simp only [List.filterMap_append, List.filterMap_cons, List.filterMap_nil] at hc ⊢
          simp only [hm1, hm2] at hc ⊢
          simp only [hke] at hc
          simp only [hke, EvKind.heldId, FlowBlk.heldId, hfbn, Option.none_bind, Option.some_bind,
            Option.toList_some, Option.toList_none, List.any_append, List.any_cons, List.any_nil,
            Bool.false_or, Bool.or_false,
            show ((EvKind.st0Timeout p tS pt == EvKind.srcInit) || (EvKind.st0Timeout p tS pt == EvKind.srcTimeout)) = false from rfl,
            show ((EvKind.st0End p tS == EvKind.srcInit) || (EvKind.st0End p tS == EvKind.srcTimeout)) = false from rfl] at hc ⊢
          simp only [List.map_append, List.map_cons, List.map_nil, List.append_assoc,
            List.append_nil, List.nil_append, List.cons_append, List.singleton_append] at hc ⊢
          exact hc
        · intro x hx
          simp only [List.mem_append, List.mem_singleton] at hx
          rcases hx with hr | rfl
          · exact EvWF_nonflow (countP_zero_not hcr hr)
          · simp only [EvWF]
            exact ⟨by linarith [hewf.1, hewf.2.1], hewf.2.2.2⟩
        · intro b hb
          simp [hfbn] at hb
      | st1Init p p2 tS tE t1s =>
        obtain ⟨hfbn, ⟨hc1, hc2⟩, hm1, hm2⟩ := flow_case_facts h.flowTok1 hsplit
          (by rw [hke]; rfl)
        have hcr : rest.countP (fun x => x.kind.isFlow) = 0 := by
          rw [hrest, List.countP_append]; omega
        simp only [EvWF, hke] at hewf
        simp only [handle, SimState.sched]
        refine ⟨?_, hemax, h.mean0, h.mean1, h.mean2, h.busy0, h.busy1, h.busy2,
          hbusyE, ?_, ?_, ?_, ?_, ?_, ?_, ?_, h.logOK, h.logIds⟩
        · intro x hx
          simp only [List.mem_append, List.mem_singleton] at hx
          rcases hx with hr | rfl
          · exact hrestT x hr
          · have hpt : (0 : ℚ) ≤ σ.s1.meanProc * exps σ.rnd :=
              mul_nonneg h.mean1 (he σ.rnd)
            simpa using hpt
        · have h1 := h.flowTok1
          rw [flowTok, hsplit] at h1
          rw [flowTok]
          simp only [hrest, List.countP_append, List.countP_cons, List.countP_nil, hke,
            EvKind.isFlow, Bool.false_eq_true, if_false, if_true, Option.isSome_none,
            Option.isSome_some, hfbn] at h1 ⊢
          omega
        · have h1 := h.srcTok1
          rw [srcTok, hsplit] at h1
          rw [srcTok]
          simp only [hrest, List.countP_append, List.countP_cons, List.countP_nil, hke,
            EvKind.isSrc, Bool.false_eq_true, if_false, if_true, Option.isSome_none,
            Option.isSome_some] at h1 ⊢
          omega
        · intro x hx hxk
          simp only [List.mem_append, List.mem_singleton] at hx
          rcases hx with hr | rfl
          · exact h.srcInit0 x (hmemR x hr) hxk
          · simp at hxk
        · intro x hx hxk
          simp only [List.mem_append, List.mem_singleton] at hx
          rcases hx with hr | rfl
          · exact h.srcTimeout1 x (hmemR x hr) hxk
          · simp at hxk
        · have hc := h.conserve
          simp only [flowHeld, srcPend, created] at hc ⊢
          rw [hsplit] at hc
          rw [hrest]
          simp only [List.filterMap_append, List.filterMap_cons, List.filterMap_nil] at hc ⊢
          simp only [hm1, hm2] at hc ⊢
          simp only [hke] at hc
          simp only [hke, EvKind.heldId, FlowBlk.heldId, hfbn, Option.none_bind, Option.some_bind,
            Option.toList_some, Option.toList_none, List.any_append, List.any_cons, List.any_nil,
            Bool.false_or, Bool.or_false,
            show ((EvKind.st1Init p p2 tS tE t1s == EvKind.srcInit) || (EvKind.st1Init p p2 tS tE t1s == EvKind.srcTimeout)) = false from rfl,
            show ((EvKind.st1Timeout p p2 tS tE t1s (σ.s1.meanProc * exps σ.rnd) == EvKind.srcInit) || (EvKind.st1Timeout p p2 tS tE t1s (σ.s1.meanProc * exps σ.rnd) == EvKind.srcTimeout)) = false from rfl] at hc ⊢
          simp only [List.map_append, List.map_cons, List.map_nil, List.append_assoc,
            List.append_nil, List.nil_append, List.cons_append, List.singleton_append] at hc ⊢
          exact hc
        · intro x hx
          simp only [List.mem_append, List.mem_singleton] at hx
          rcases hx with hr | rfl
          · exact EvWF_nonflow (countP_zero_not hcr hr)
          · simp only [EvWF]
            refine ⟨by rw [hewf.1], mul_nonneg h.mean1 (he σ.rnd), ?_, hewf.2.1, hewf.2.2.1,
              hewf.2.2.2.1, hewf.2.2.2.2⟩
            have hbs : busySum σ ≤ t1s := by rw [← hewf.1]; exact hbusyE
            simpa [busySum] using hbs
        · intro b hb
          simp [hfbn] at hb
      | st1Timeout p p2 tS tE t1s pt =>
        obtain ⟨hfbn, ⟨hc1, hc2⟩, hm1, hm2⟩ := flow_case_facts h.flowTok1 hsplit
          (by rw [hke]; rfl)
        have hcr : rest.countP (fun x => x.kind.isFlow) = 0 := by
          rw [hrest, List.countP_append]; omega
        simp only [EvWF, hke] at hewf
        simp only [handle, SimState.sched]
        refine ⟨?_, hemax, h.mean0, h.mean1, h.mean2, h.busy0, add_nonneg h.busy1 hewf.2.1, h.busy2, ?_, ?_, ?_, ?_, ?_, ?_, ?_, ?_,
          h.logOK, h.logIds⟩
        · intro x hx
          simp only [List.mem_append, List.mem_singleton] at hx
          rcases hx with hr | rfl
          · exact hrestT x hr
          · exact le_refl _
        · have h1 := hewf.2.2.1
          simp only [busySum] at h1 ⊢
          linarith [hewf.1, hewf.2.1]
        · have h1 := h.flowTok1
          rw [flowTok, hsplit] at h1
          rw [flowTok]
          simp only [hrest, List.countP_append, List.countP_cons, List.countP_nil, hke,
            EvKind.isFlow, Bool.false_eq_true, if_false, if_true, Option.isSome_none,
            Option.isSome_some, hfbn] at h1 ⊢
          omega
        · have h1 := h.srcTok1
          rw [srcTok, hsplit] at h1
          rw [srcTok]
          simp only [hrest, List.countP_append, List.countP_cons, List.countP_nil, hke,
            EvKind.isSrc, Bool.false_eq_true, if_false, if_true, Option.isSome_none,
            Option.isSome_some] at h1 ⊢
          omega
        · intro x hx hxk
          simp only [List.mem_append, List.mem_singleton] at hx
          rcases hx with hr | rfl
          · exact h.srcInit0 x (hmemR x hr) hxk
          · simp at hxk
        · intro x hx hxk
          simp only [List.mem_append, List.mem_singleton] at hx
          rcases hx with hr | rfl
          · exact h.srcTimeout1 x (hmemR x hr) hxk
          · simp at hxk
        · have hc := h.conserve
          simp only [flowHeld, srcPend, created] at hc ⊢
          rw [hsplit] at hc
          rw [hrest]
          simp only [List.filterMap_append, List.filterMap_cons, List.filterMap_nil] at hc ⊢
          simp only [hm1, hm2] at hc ⊢
          simp only [hke] at hc
          simp only [hke, EvKind.heldId, FlowBlk.heldId, hfbn, Option.none_bind, Option.some_bind,
            Option.toList_some, Option.toList_none, List.any_append, List.any_cons, List.any_nil,
            Bool.false_or, Bool.or_false,
            show ((EvKind.st1Timeout p p2 tS tE t1s pt == EvKind.srcInit) || (EvKind.st1Timeout p p2 tS tE t1s pt == EvKind.srcTimeout)) = false from rfl,
            show ((EvKind.st1End p p2 tS tE t1s == EvKind.srcInit) || (EvKind.st1End p p2 tS tE t1s == EvKind.srcTimeout)) = false from rfl] at hc ⊢
          simp only [List.map_append, List.map_cons, List.map_nil, List.append_assoc,
            List.append_nil, List.nil_append, List.cons_append, List.singleton_append] at hc ⊢
          exact hc
        · intro x hx
          simp only [List.mem_append, List.mem_singleton] at hx
          rcases hx with hr | rfl
          · exact EvWF_nonflow (countP_zero_not hcr hr)
          · simp only [EvWF]
            exact ⟨hewf.2.2.2.1, hewf.2.2.2.2.1, by linarith [hewf.1, hewf.2.1],
              hewf.2.2.2.2.2.1, hewf.2.2.2.2.2.2⟩
        · intro b hb
          simp [hfbn] at hb
      | st2Init p p2 tS tE t1s t1e t2s =>
        obtain ⟨hfbn, ⟨hc1, hc2⟩, hm1, hm2⟩ := flow_case_facts h.flowTok1 hsplit
          (by rw [hke]; rfl)
        have hcr : rest.countP (fun x => x.kind.isFlow) = 0 := by
          rw [hrest, List.countP_append]; omega
        simp only [EvWF, hke] at hewf
        simp only [handle, SimState.sched]
        refine ⟨?_, hemax, h.mean0, h.mean1, h.mean2, h.busy0, h.busy1, h.busy2,
          hbusyE, ?_, ?_, ?_, ?_, ?_, ?_, ?_, h.logOK, h.logIds⟩
        · intro x hx
          simp only [List.mem_append, List.mem_singleton] at hx
          rcases hx with hr | rfl
          · exact hrestT x hr
          · have hpt : (0 : ℚ) ≤ σ.s2.meanProc * exps σ.rnd :=
              mul_nonneg h.mean2 (he σ.rnd)
            simpa using hpt
        · have h1 := h.flowTok1
          rw [flowTok, hsplit] at h1
          rw [flowTok]
          simp only [hrest, List.countP_append, List.countP_cons, List.countP_nil, hke,
            EvKind.isFlow, Bool.false_eq_true, if_false, if_true, Option.isSome_none,
            Option.isSome_some, hfbn] at h1 ⊢
          omega
        · have h1 := h.srcTok1
          rw [srcTok, hsplit] at h1
          rw [srcTok]
          simp only [hrest, List.countP_append, List.countP_cons, List.countP_nil, hke,
            EvKind.isSrc, Bool.false_eq_true, if_false, if_true, Option.isSome_none,
            Option.isSome_some] at h1 ⊢
          omega
        · intro x hx hxk
          simp only [List.mem_append, List.mem_singleton] at hx
          rcases hx with hr | rfl
          · exact h.srcInit0 x (hmemR x hr) hxk
          · simp at hxk
        · intro x hx hxk
          simp only [List.mem_append, List.mem_singleton] at hx
          rcases hx with hr | rfl
          · exact h.srcTimeout1 x (hmemR x hr) hxk
          · simp at hxk
        · have hc := h.conserve
          simp only [flowHeld, srcPend, created] at hc ⊢
          rw [hsplit] at hc
          rw [hrest]
          simp only [List.filterMap_append, List.filterMap_cons, List.filterMap_nil] at hc ⊢
          simp only [hm1, hm2] at hc ⊢
          simp only [hke] at hc
          simp only [hke, EvKind.heldId, FlowBlk.heldId, hfbn, Option.none_bind, Option.some_bind,
            Option.toList_some, Option.toList_none, List.any_append, List.any_cons, List.any_nil,
            Bool.false_or, Bool.or_false,
            show ((EvKind.st2Init p p2 tS tE t1s t1e t2s == EvKind.srcInit) || (EvKind.st2Init p p2 tS tE t1s t1e t2s == EvKind.srcTimeout)) = false from rfl,
            show ((EvKind.st2Timeout p p2 tS tE t1s t1e t2s (σ.s2.meanProc * exps σ.rnd) == EvKind.srcInit) || (EvKind.st2Timeout p p2 tS tE t1s t1e t2s (σ.s2.meanProc * exps σ.rnd) == EvKind.srcTimeout)) = false from rfl] at hc ⊢
          simp only [List.map_append, List.map_cons, List.map_nil, List.append_assoc,
            List.append_nil, List.nil_append, List.cons_append, List.singleton_append] at hc ⊢
          exact hc
        · intro x hx
          simp only [List.mem_append, List.mem_singleton] at hx
          rcases hx with hr | rfl
          · exact EvWF_nonflow (countP_zero_not hcr hr)
          · simp only [EvWF]
            refine ⟨by rw [hewf.1], mul_nonneg h.mean2 (he σ.rnd), ?_, hewf.2.1, hewf.2.2.1,
              hewf.2.2.2.1, hewf.2.2.2.2.1, hewf.2.2.2.2.2.1, hewf.2.2.2.2.2.2⟩
            have hbs : busySum σ ≤ t2s := by rw [← hewf.1]; exact hbusyE
            simpa [busySum] using hbs
        · intro b hb
          simp [hfbn] at hb
      | st2Timeout p p2 tS tE t1s t1e t2s pt =>
        obtain ⟨hfbn, ⟨hc1, hc2⟩, hm1, hm2⟩ := flow_case_facts h.flowTok1 hsplit
          (by rw [hke]; rfl)
        have hcr : rest.countP (fun x => x.kind.isFlow) = 0 := by
          rw [hrest, List.countP_append]; omega
        simp only [EvWF, hke] at hewf
        simp only [handle, SimState.sched]
        refine ⟨?_, hemax, h.mean0, h.mean1, h.mean2, h.busy0, h.busy1, add_nonneg h.busy2 hewf.2.1, ?_, ?_, ?_, ?_, ?_, ?_, ?_, ?_,
          h.logOK, h.logIds⟩
        · intro x hx
          simp only [List.mem_append, List.mem_singleton] at hx
          rcases hx with hr | rfl
          · exact hrestT x hr
          · exact le_refl _
        · have h1 := hewf.2.2.1
          simp only [busySum] at h1 ⊢
          linarith [hewf.1, hewf.2.1]
        · have h1 := h.flowTok1
          rw [flowTok, hsplit] at h1
          rw [flowTok]
          simp only [hrest, List.countP_append, List.countP_cons, List.countP_nil, hke,
            EvKind.isFlow, Bool.false_eq_true, if_false, if_true, Option.isSome_none,
            Option.isSome_some, hfbn] at h1 ⊢
          omega
        · have h1 := h.srcTok1
          rw [srcTok, hsplit] at h1
          rw [srcTok]
          simp only [hrest, List.countP_append, List.countP_cons, List.countP_nil, hke,
            EvKind.isSrc, Bool.false_eq_true, if_false, if_true, Option.isSome_none,
            Option.isSome_some] at h1 ⊢
          omega
        · intro x hx hxk
          simp only [List.mem_append, List.mem_singleton] at hx
          rcases hx with hr | rfl
          · exact h.srcInit0 x (hmemR x hr) hxk
          · simp at hxk
        · intro x hx hxk
          simp only [List.mem_append, List.mem_singleton] at hx
          rcases hx with hr | rfl
          · exact h.srcTimeout1 x (hmemR x hr) hxk
          · simp at hxk
        · have hc := h.conserve
          simp only [flowHeld, srcPend, created] at hc ⊢
          rw [hsplit] at hc
          rw [hrest]
          simp only [List.filterMap_append, List.filterMap_cons, List.filterMap_nil] at hc ⊢
          simp only [hm1, hm2] at hc ⊢
          simp only [hke] at hc
          simp only [hke, EvKind.heldId, FlowBlk.heldId, hfbn, Option.none_bind, Option.some_bind,
            Option.toList_some, Option.toList_none, List.any_append, List.any_cons, List.any_nil,
            Bool.false_or, Bool.or_false,
            show ((EvKind.st2Timeout p p2 tS tE t1s t1e t2s pt == EvKind.srcInit) || (EvKind.st2Timeout p p2 tS tE t1s t1e t2s pt == EvKind.srcTimeout)) = false from rfl,
            show ((EvKind.st2End p p2 tS tE t1s t1e t2s == EvKind.srcInit) || (EvKind.st2End p p2 tS tE t1s t1e t2s == EvKind.srcTimeout)) = false from rfl] at hc ⊢
          simp only [List.map_append, List.map_cons, List.map_nil, List.append_assoc,
            List.append_nil, List.nil_append, List.cons_append, List.singleton_append] at hc ⊢
          exact hc
        · intro x hx
          simp only [List.mem_append, List.mem_singleton] at hx
          rcases hx with hr | rfl
          · exact EvWF_nonflow (countP_zero_not hcr hr)
          · simp only [EvWF]
            exact ⟨hewf.2.2.2.1, hewf.2.2.2.2.1, hewf.2.2.2.2.2.1, hewf.2.2.2.2.2.2.1,
              by linarith [hewf.1, hewf.2.1], hewf.2.2.2.2.2.2.2.1, hewf.2.2.2.2.2.2.2.2⟩
        · intro b hb
          simp [hfbn] at hb
      | st0End p tS =>
        obtain ⟨hfbn, ⟨hc1, hc2⟩, hm1, hm2⟩ := flow_case_facts h.flowTok1 hsplit
          (by rw [hke]; rfl)
        have hcr : rest.countP (fun x => x.kind.isFlow) = 0 := by
          rw [hrest, List.countP_append]; omega
        simp only [EvWF, hke] at hewf
        simp only [handle, SimState.sched]
        by_cases hcap : (σ.q12.length : ℤ) < σ.cap12
        · rw [if_pos hcap]
          refine ⟨?_, hemax, h.mean0, h.mean1, h.mean2, h.busy0, h.busy1, h.busy2,
            hbusyE, ?_, ?_, ?_, ?_, ?_, ?_, ?_, h.logOK, h.logIds⟩
          · intro x hx
            simp only [List.mem_append, List.mem_singleton] at hx
            rcases hx with (hr | rfl) | rfl
            · exact hrestT x hr
            · exact le_refl _
            · exact le_refl _
          · have h1 := h.flowTok1
            rw [flowTok, hsplit] at h1
            rw [flowTok]
            simp only [hrest, List.countP_append, List.countP_cons, List.countP_nil, hke,
              EvKind.isFlow, Bool.false_eq_true, if_false, if_true, Option.isSome_none,
              Option.isSome_some, hfbn] at h1 ⊢
            omega
          · have h1 := h.srcTok1
            rw [srcTok, hsplit] at h1
            rw [srcTok]
            simp only [hrest, List.countP_append, List.countP_cons, List.countP_nil, hke,
              EvKind.isSrc, Bool.false_eq_true, if_false, if_true, Option.isSome_none,
              Option.isSome_some] at h1 ⊢
            omega
          · intro x hx hxk
            simp only [List.mem_append, List.mem_singleton] at hx
            rcases hx with (hr | rfl) | rfl
            · exact h.srcInit0 x (hmemR x hr) hxk
            · simp at hxk
            · simp at hxk
          · intro x hx hxk
            simp only [List.mem_append, List.mem_singleton] at hx
            rcases hx with (hr | rfl) | rfl
            · exact h.srcTimeout1 x (hmemR x hr) hxk
            · simp at hxk
            · simp at hxk
          · have hc := h.conserve
            simp only [flowHeld, srcPend, created] at hc ⊢
            rw [hsplit] at hc
            rw [hrest]
            simp only [List.filterMap_append, List.filterMap_cons, List.filterMap_nil] at hc ⊢
            simp only [hm1, hm2] at hc ⊢
            simp only [hke] at hc
            simp only [hke, EvKind.heldId, FlowBlk.heldId, hfbn, Option.none_bind, Option.some_bind,
              Option.toList_some, Option.toList_none, List.any_append, List.any_cons, List.any_nil,
              Bool.false_or, Bool.or_false,
              show ((EvKind.st0End p tS == EvKind.srcInit) || (EvKind.st0End p tS == EvKind.srcTimeout)) = false from rfl,
              show ((EvKind.resRelease 0 == EvKind.srcInit) || (EvKind.resRelease 0 == EvKind.srcTimeout)) = false from rfl,
              show ((EvKind.flowPut12Done p tS e.time == EvKind.srcInit) || (EvKind.flowPut12Done p tS e.time == EvKind.srcTimeout)) = false from rfl] at hc ⊢
            simp only [List.map_append, List.map_cons, List.map_nil, List.append_assoc,
              List.append_nil, List.nil_append, List.cons_append, List.singleton_append] at hc ⊢
            exact hc
          · intro x hx
            simp only [List.mem_append, List.mem_singleton] at hx
            rcases hx with (hr | rfl) | rfl
            · exact EvWF_nonflow (countP_zero_not hcr hr)
            · simp [EvWF]
            · simp only [EvWF]
              exact ⟨hewf.1, le_refl _, by simp [hewf.2]⟩
          · intro b hb
            simp [hfbn] at hb
        · rw [if_neg hcap]
          refine ⟨?_, hemax, h.mean0, h.mean1, h.mean2, h.busy0, h.busy1, h.busy2,
            hbusyE, ?_, ?_, ?_, ?_, ?_, ?_, ?_, h.logOK, h.logIds⟩
          · intro x hx
            simp only [List.mem_append, List.mem_singleton] at hx
            rcases hx with hr | rfl
            · exact hrestT x hr
            · exact le_refl _
          · have h1 := h.flowTok1
            rw [flowTok, hsplit] at h1
            rw [flowTok]
            simp only [hrest, List.countP_append, List.countP_cons, List.countP_nil, hke,
              EvKind.isFlow, Bool.false_eq_true, if_false, if_true, Option.isSome_none,
              Option.isSome_some, hfbn] at h1 ⊢
            omega
          · have h1 := h.srcTok1
            rw [srcTok, hsplit] at h1
            rw [srcTok]
            simp only [hrest, List.countP_append, List.countP_cons, List.countP_nil, hke,
              EvKind.isSrc, Bool.false_eq_true, if_false, if_true, Option.isSome_none,
              Option.isSome_some] at h1 ⊢
            omega
          · intro x hx hxk
            simp only [List.mem_append, List.mem_singleton] at hx
            rcases hx with hr | rfl
            · exact h.srcInit0 x (hmemR x hr) hxk
            · simp at hxk
          · intro x hx hxk
            simp only [List.mem_append, List.mem_singleton] at hx
            rcases hx with hr | rfl
            · exact h.srcTimeout1 x (hmemR x hr) hxk
            · simp at hxk
          · have hc := h.conserve
            simp only [flowHeld, srcPend, created] at hc ⊢
            rw [hsplit] at hc
            rw [hrest]
            simp only [List.filterMap_append, List.filterMap_cons, List.filterMap_nil] at hc ⊢
            simp only [hm1, hm2] at hc ⊢
            simp only [hke] at hc
            simp only [hke, EvKind.heldId, FlowBlk.heldId, hfbn, Option.none_bind, Option.some_bind,
              Option.toList_some, Option.toList_none, List.any_append, List.any_cons, List.any_nil,
              Bool.false_or, Bool.or_false,
              show ((EvKind.st0End p tS == EvKind.srcInit) || (EvKind.st0End p tS == EvKind.srcTimeout)) = false from rfl,
              show ((EvKind.resRelease 0 == EvKind.srcInit) || (EvKind.resRelease 0 == EvKind.srcTimeout)) = false from rfl] at hc ⊢
            simp only [List.map_append, List.map_cons, List.map_nil, List.append_assoc,
              List.append_nil, List.nil_append, List.cons_append, List.singleton_append] at hc ⊢
            exact hc
          · intro x hx
            simp only [List.mem_append, List.mem_singleton] at hx
            rcases hx with hr | rfl
            · exact EvWF_nonflow (countP_zero_not hcr hr)
            · simp [EvWF]
          · intro b hb
            simp only [Option.some.injEq] at hb
            rw [← hb]
            refine ⟨hewf.2, ?_⟩
            have h2 := hcap
            rw [hewf.2] at h2
            simp at h2
            show σ.cap12 ≤ 0
            omega
      | flowPut12Done p tS tE =>
        obtain ⟨hfbn, ⟨hc1, hc2⟩, hm1, hm2⟩ := flow_case_facts h.flowTok1 hsplit
          (by rw [hke]; rfl)
        have hcr : rest.countP (fun x => x.kind.isFlow) = 0 := by
          rw [hrest, List.countP_append]; omega
        simp only [EvWF, hke] at hewf
        simp only [handle, SimState.sched]
        rw [hewf.2.2]
        simp only []
        refine ⟨?_, hemax, h.mean0, h.mean1, h.mean2, h.busy0, h.busy1, h.busy2,
          hbusyE, ?_, ?_, ?_, ?_, ?_, ?_, ?_, h.logOK, h.logIds⟩
        · intro x hx
          simp only [List.mem_append, List.mem_singleton] at hx
          rcases hx with hr | rfl
          · exact hrestT x hr
          · exact le_refl _
        · have h1 := h.flowTok1
          rw [flowTok, hsplit] at h1
          rw [flowTok]
          simp only [hrest, List.countP_append, List.countP_cons, List.countP_nil, hke,
            EvKind.isFlow, Bool.false_eq_true, if_false, if_true, Option.isSome_none,
            Option.isSome_some, hfbn] at h1 ⊢
          omega
        · have h1 := h.srcTok1
          rw [srcTok, hsplit] at h1
          rw [srcTok]
          simp only [hrest, List.countP_append, List.countP_cons, List.countP_nil, hke,
            EvKind.isSrc, Bool.false_eq_true, if_false, if_true, Option.isSome_none,
            Option.isSome_some] at h1 ⊢
          omega
        · intro x hx hxk
          simp only [List.mem_append, List.mem_singleton] at hx
          rcases hx with hr | rfl
          · exact h.srcInit0 x (hmemR x hr) hxk
          · simp at hxk
        · intro x hx hxk
          simp only [List.mem_append, List.mem_singleton] at hx
          rcases hx with hr | rfl
          · exact h.srcTimeout1 x (hmemR x hr) hxk
          · simp at hxk
        · have hc := h.conserve
          simp only [flowHeld, srcPend, created] at hc ⊢
          rw [hsplit] at hc
          rw [hrest]
          simp only [List.filterMap_append, List.filterMap_cons, List.filterMap_nil] at hc ⊢
          simp only [hm1, hm2] at hc ⊢
          simp only [hke] at hc
          simp only [hke, EvKind.heldId, FlowBlk.heldId, hfbn, Option.none_bind, Option.some_bind,
            Option.toList_some, Option.toList_none, List.any_append, List.any_cons, List.any_nil,
            Bool.false_or, Bool.or_false,
            show ((EvKind.flowPut12Done p tS tE == EvKind.srcInit) || (EvKind.flowPut12Done p tS tE == EvKind.srcTimeout)) = false from rfl,
            show ((EvKind.flowGot12 p ⟨p.id, tE⟩ tS tE == EvKind.srcInit) || (EvKind.flowGot12 p ⟨p.id, tE⟩ tS tE == EvKind.srcTimeout)) = false from rfl] at hc ⊢
          simp only [List.map_append, List.map_cons, List.map_nil, List.append_assoc,
            List.append_nil, List.nil_append, List.cons_append, List.singleton_append] at hc ⊢
          exact hc
        · intro x hx
          simp only [List.mem_append, List.mem_singleton] at hx
          rcases hx with hr | rfl
          · exact EvWF_nonflow (countP_zero_not hcr hr)
          · simp [EvWF, hewf.1, hewf.2.1]
        · intro b hb
          simp [hfbn] at hb
      | flowGot12 p p2 tS tE =>
        obtain ⟨hfbn, ⟨hc1, hc2⟩, hm1, hm2⟩ := flow_case_facts h.flowTok1 hsplit
          (by rw [hke]; rfl)
        have hcr : rest.countP (fun x => x.kind.isFlow) = 0 := by
          rw [hrest, List.countP_append]; omega
        simp only [EvWF, hke] at hewf
        simp only [handle, requestRes1, SimState.sched]
        by_cases hres : σ.res1 = true
        · rw [if_pos hres]
          refine ⟨fun x hx => hrestT x hx, hemax, h.mean0, h.mean1, h.mean2, h.busy0, h.busy1,
            h.busy2, hbusyE, ?_, ?_, ?_, ?_, ?_, ?_, ?_, h.logOK, h.logIds⟩
          · have h1 := h.flowTok1
            rw [flowTok, hsplit] at h1
            rw [flowTok]
            simp only [hrest, List.countP_append, List.countP_cons, List.countP_nil, hke,
              EvKind.isFlow, Bool.false_eq_true, if_false, if_true, Option.isSome_none,
              Option.isSome_some, hfbn] at h1 ⊢
            omega
          · have h1 := h.srcTok1
            rw [srcTok, hsplit] at h1
            rw [srcTok]
            simp only [hrest, List.countP_append, List.countP_cons, List.countP_nil, hke,
              EvKind.isSrc, Bool.false_eq_true, if_false, if_true, Option.isSome_none,
              Option.isSome_some] at h1 ⊢
            omega
          · intro x hx hxk
            exact h.srcInit0 x (hmemR x hx) hxk
          · intro x hx hxk
            exact h.srcTimeout1 x (hmemR x hx) hxk
          · have hc := h.conserve
            simp only [flowHeld, srcPend, created] at hc ⊢
            rw [hsplit] at hc
            rw [hrest]
            simp only [List.filterMap_append, List.filterMap_cons, List.filterMap_nil] at hc ⊢
            simp only [hm1, hm2] at hc ⊢
            simp only [hke] at hc
            simp only [hke, EvKind.heldId, FlowBlk.heldId, hfbn, Option.none_bind, Option.some_bind,
              Option.toList_some, Option.toList_none, List.any_append, List.any_cons, List.any_nil,
              Bool.false_or, Bool.or_false,
              show ((EvKind.flowGot12 p p2 tS tE == EvKind.srcInit) || (EvKind.flowGot12 p p2 tS tE == EvKind.srcTimeout)) = false from rfl] at hc ⊢
            simp only [List.map_append, List.map_cons, List.map_nil, List.append_assoc,
              List.append_nil, List.nil_append, List.cons_append, List.singleton_append] at hc ⊢
            exact hc
          · intro x hx
            exact EvWF_nonflow (countP_zero_not hcr hx)
          · intro b hb
            simp only [Option.some.injEq] at hb
            rw [← hb]
            simpa [FlowBlkWF] using hewf.2.2.2
        · rw [if_neg hres]
          refine ⟨?_, hemax, h.mean0, h.mean1, h.mean2, h.busy0, h.busy1, h.busy2,
            hbusyE, ?_, ?_, ?_, ?_, ?_, ?_, ?_, h.logOK, h.logIds⟩
          · intro x hx
            simp only [List.mem_append, List.mem_singleton] at hx
            rcases hx with hr | rfl
            · exact hrestT x hr
            · exact le_refl _
          · have h1 := h.flowTok1
            rw [flowTok, hsplit] at h1
            rw [flowTok]
            simp only [hrest, List.countP_append, List.countP_cons, List.countP_nil, hke,
              EvKind.isFlow, Bool.false_eq_true, if_false, if_true, Option.isSome_none,
              Option.isSome_some, hfbn] at h1 ⊢
            omega
          · have h1 := h.srcTok1
            rw [srcTok, hsplit] at h1
            rw [srcTok]
            simp only [hrest, List.countP_append, List.countP_cons, List.countP_nil, hke,
              EvKind.isSrc, Bool.false_eq_true, if_false, if_true, Option.isSome_none,
              Option.isSome_some] at h1 ⊢
            omega
          · intro x hx hxk
            simp only [List.mem_append, List.mem_singleton] at hx
            rcases hx with hr | rfl
            · exact h.srcInit0 x (hmemR x hr) hxk
            · simp at hxk
          · intro x hx hxk
            simp only [List.mem_append, List.mem_singleton] at hx
            rcases hx with hr | rfl
            · exact h.srcTimeout1 x (hmemR x hr) hxk
            · simp at hxk
          · have hc := h.conserve
            simp only [flowHeld, srcPend, created] at hc ⊢
            rw [hsplit] at hc
            rw [hrest]
            simp only [List.filterMap_append, List.filterMap_cons, List.filterMap_nil] at hc ⊢
            simp only [hm1, hm2] at hc ⊢
            simp only [hke] at hc
            simp only [hke, EvKind.heldId, FlowBlk.heldId, hfbn, Option.none_bind, Option.some_bind,
              Option.toList_some, Option.toList_none, List.any_append, List.any_cons, List.any_nil,
              Bool.false_or, Bool.or_false,
              show ((EvKind.flowGot12 p p2 tS tE == EvKind.srcInit) || (EvKind.flowGot12 p p2 tS tE == EvKind.srcTimeout)) = false from rfl,
              show ((EvKind.flowReq1 p p2 tS tE == EvKind.srcInit) || (EvKind.flowReq1 p p2 tS tE == EvKind.srcTimeout)) = false from rfl] at hc ⊢
            simp only [List.map_append, List.map_cons, List.map_nil, List.append_assoc,
              List.append_nil, List.nil_append, List.cons_append, List.singleton_append] at hc ⊢
            exact hc
          · intro x hx
            simp only [List.mem_append, List.mem_singleton] at hx
            rcases hx with hr | rfl
            · exact EvWF_nonflow (countP_zero_not hcr hr)
            · simp only [EvWF]
              exact ⟨hewf.1, hewf.2.1, hewf.2.2.1, hewf.2.2.2⟩
          · intro b hb
            simp [hfbn] at hb
      | flowReq1 p p2 tS tE =>
        obtain ⟨hfbn, ⟨hc1, hc2⟩, hm1, hm2⟩ := flow_case_facts h.flowTok1 hsplit
          (by rw [hke]; rfl)
        have hcr : rest.countP (fun x => x.kind.isFlow) = 0 := by
          rw [hrest, List.countP_append]; omega
        simp only [EvWF, hke] at hewf
        simp only [handle, SimState.sched]
        refine ⟨?_, hemax, h.mean0, h.mean1, h.mean2, h.busy0, h.busy1, h.busy2,
          hbusyE, ?_, ?_, ?_, ?_, ?_, ?_, ?_, h.logOK, h.logIds⟩
        · intro x hx
          simp only [List.mem_append, List.mem_singleton] at hx
          rcases hx with hr | rfl
          · exact hrestT x hr
          · exact le_refl _
        · have h1 := h.flowTok1
          rw [flowTok, hsplit] at h1
          rw [flowTok]
          simp only [hrest, List.countP_append, List.countP_cons, List.countP_nil, hke,
            EvKind.isFlow, Bool.false_eq_true, if_false, if_true, Option.isSome_none,
            Option.isSome_some, hfbn] at h1 ⊢
          omega
        · have h1 := h.srcTok1
          rw [srcTok, hsplit] at h1
          rw [srcTok]
          simp only [hrest, List.countP_append, List.countP_cons, List.countP_nil, hke,
            EvKind.isSrc, Bool.false_eq_true, if_false, if_true, Option.isSome_none,
            Option.isSome_some] at h1 ⊢
          omega
        · intro x hx hxk
          simp only [List.mem_append, List.mem_singleton] at hx
          rcases hx with hr | rfl
          · exact h.srcInit0 x (hmemR x hr) hxk
          · simp at hxk
        · intro x hx hxk
          simp only [List.mem_append, List.mem_singleton] at hx
          rcases hx with hr | rfl
          · exact h.srcTimeout1 x (hmemR x hr) hxk
          · simp at hxk
        · have hc := h.conserve
          simp only [flowHeld, srcPend, created] at hc ⊢
          rw [hsplit] at hc
          rw [hrest]
          simp only [List.filterMap_append, List.filterMap_cons, List.filterMap_nil] at hc ⊢
          simp only [hm1, hm2] at hc ⊢
          simp only [hke] at hc
          simp only [hke, EvKind.heldId, FlowBlk.heldId, hfbn, Option.none_bind, Option.some_bind,
            Option.toList_some, Option.toList_none, List.any_append, List.any_cons, List.any_nil,
            Bool.false_or, Bool.or_false,
            show ((EvKind.flowReq1 p p2 tS tE == EvKind.srcInit) || (EvKind.flowReq1 p p2 tS tE == EvKind.srcTimeout)) = false from rfl,
            show ((EvKind.st1Init p p2 tS tE e.time == EvKind.srcInit) || (EvKind.st1Init p p2 tS tE e.time == EvKind.srcTimeout)) = false from rfl] at hc ⊢
          simp only [List.map_append, List.map_cons, List.map_nil, List.append_assoc,
            List.append_nil, List.nil_append, List.cons_append, List.singleton_append] at hc ⊢
          exact hc
        · intro x hx
          simp only [List.mem_append, List.mem_singleton] at hx
          rcases hx with hr | rfl
          · exact EvWF_nonflow (countP_zero_not hcr hr)
          · simp [EvWF, hewf.1, hewf.2.1, hewf.2.2.1, hewf.2.2.2]
        · intro b hb
          simp [hfbn] at hb
      | st1End p p2 tS tE t1s =>
        obtain ⟨hfbn, ⟨hc1, hc2⟩, hm1, hm2⟩ := flow_case_facts h.flowTok1 hsplit
          (by rw [hke]; rfl)
        have hcr : rest.countP (fun x => x.kind.isFlow) = 0 := by
          rw [hrest, List.countP_append]; omega
        simp only [EvWF, hke] at hewf
        simp only [handle, requestRes2, SimState.sched]
        by_cases hres : σ.res2 = true
        · rw [if_pos hres]
          refine ⟨?_, hemax, h.mean0, h.mean1, h.mean2, h.busy0, h.busy1, h.busy2,
            hbusyE, ?_, ?_, ?_, ?_, ?_, ?_, ?_, h.logOK, h.logIds⟩
          · intro x hx
            simp only [List.mem_append, List.mem_singleton] at hx
            rcases hx with hr | rfl
            · exact hrestT x hr
            · exact le_refl _
          · have h1 := h.flowTok1
            rw [flowTok, hsplit] at h1
            rw [flowTok]
            simp only [hrest, List.countP_append, List.countP_cons, List.countP_nil, hke,
              EvKind.isFlow, Bool.false_eq_true, if_false, if_true, Option.isSome_none,
              Option.isSome_some, hfbn] at h1 ⊢
            omega
          · have h1 := h.srcTok1
            rw [srcTok, hsplit] at h1
            rw [srcTok]
            simp only [hrest, List.countP_append, List.countP_cons, List.countP_nil, hke,
              EvKind.isSrc, Bool.false_eq_true, if_false, if_true, Option.isSome_none,
              Option.isSome_some] at h1 ⊢
            omega
          · intro x hx hxk
            simp only [List.mem_append, List.mem_singleton] at hx
            rcases hx with hr | rfl
            · exact h.srcInit0 x (hmemR x hr) hxk
            · simp at hxk
          · intro x hx hxk
            simp only [List.mem_append, List.mem_singleton] at hx
            rcases hx with hr | rfl
            · exact h.srcTimeout1 x (hmemR x hr) hxk
            · simp at hxk
          · have hc := h.conserve
            simp only [flowHeld, srcPend, created] at hc ⊢
            rw [hsplit] at hc
            rw [hrest]
            simp only [List.filterMap_append, List.filterMap_cons, List.filterMap_nil] at hc ⊢
            simp only [hm1, hm2] at hc ⊢
            simp only [hke] at hc
            simp only [hke, EvKind.heldId, FlowBlk.heldId, hfbn, Option.none_bind, Option.some_bind,
              Option.toList_some, Option.toList_none, List.any_append, List.any_cons, List.any_nil,
              Bool.false_or, Bool.or_false,
              show ((EvKind.st1End p p2 tS tE t1s == EvKind.srcInit) || (EvKind.st1End p p2 tS tE t1s == EvKind.srcTimeout)) = false from rfl,
              show ((EvKind.resRelease 1 == EvKind.srcInit) || (EvKind.resRelease 1 == EvKind.srcTimeout)) = false from rfl] at hc ⊢
            simp only [List.map_append, List.map_cons, List.map_nil, List.append_assoc,
              List.append_nil, List.nil_append, List.cons_append, List.singleton_append] at hc ⊢
            exact hc
          · intro x hx
            simp only [List.mem_append, List.mem_singleton] at hx
            rcases hx with hr | rfl
            · exact EvWF_nonflow (countP_zero_not hcr hr)
            · simp [EvWF]
          · intro b hb
            simp only [Option.some.injEq] at hb
            rw [← hb]
            simpa [FlowBlkWF] using hewf.2.2.2.2
        · rw [if_neg hres]
          refine ⟨?_, hemax, h.mean0, h.mean1, h.mean2, h.busy0, h.busy1, h.busy2,
            hbusyE, ?_, ?_, ?_, ?_, ?_, ?_, ?_, h.logOK, h.logIds⟩
          · intro x hx
            simp only [List.mem_append, List.mem_singleton] at hx
            rcases hx with (hr | rfl) | rfl
            · exact hrestT x hr
            · exact le_refl _
            · exact le_refl _
          · have h1 := h.flowTok1
            rw [flowTok, hsplit] at h1
            rw [flowTok]
            simp only [hrest, List.countP_append, List.countP_cons, List.countP_nil, hke,
              EvKind.isFlow, Bool.false_eq_true, if_false, if_true, Option.isSome_none,
              Option.isSome_some, hfbn] at h1 ⊢
            omega
          · have h1 := h.srcTok1
            rw [srcTok, hsplit] at h1
            rw [srcTok]
            simp only [hrest, List.countP_append, List.countP_cons, List.countP_nil, hke,
              EvKind.isSrc, Bool.false_eq_true, if_false, if_true, Option.isSome_none,
              Option.isSome_some] at h1 ⊢
            omega
          · intro x hx hxk
            simp only [List.mem_append, List.mem_singleton] at hx
            rcases hx with (hr | rfl) | rfl
            · exact h.srcInit0 x (hmemR x hr) hxk
            · simp at hxk
            · simp at hxk
          · intro x hx hxk
            simp only [List.mem_append, List.mem_singleton] at hx
            rcases hx with (hr | rfl) | rfl
            · exact h.srcTimeout1 x (hmemR x hr) hxk
            · simp at hxk
            · simp at hxk
          · have hc := h.conserve
            simp only [flowHeld, srcPend, created] at hc ⊢
            rw [hsplit] at hc
            rw [hrest]
            simp only [List.filterMap_append, List.filterMap_cons, List.filterMap_nil] at hc ⊢
            simp only [hm1, hm2] at hc ⊢
            simp only [hke] at hc
            simp only [hke, EvKind.heldId, FlowBlk.heldId, hfbn, Option.none_bind, Option.some_bind,
              Option.toList_some, Option.toList_none, List.any_append, List.any_cons, List.any_nil,
              Bool.false_or, Bool.or_false,
              show ((EvKind.st1End p p2 tS tE t1s == EvKind.srcInit) || (EvKind.st1End p p2 tS tE t1s == EvKind.srcTimeout)) = false from rfl,
              show ((EvKind.resRelease 1 == EvKind.srcInit) || (EvKind.resRelease 1 == EvKind.srcTimeout)) = false from rfl,
              show ((EvKind.flowReq2 p p2 tS tE t1s e.time == EvKind.srcInit) || (EvKind.flowReq2 p p2 tS tE t1s e.time == EvKind.srcTimeout)) = false from rfl] at hc ⊢
            simp only [List.map_append, List.map_cons, List.map_nil, List.append_assoc,
              List.append_nil, List.nil_append, List.cons_append, List.singleton_append] at hc ⊢
            exact hc
          · intro x hx
            simp only [List.mem_append, List.mem_singleton] at hx
            rcases hx with (hr | rfl) | rfl
            · exact EvWF_nonflow (countP_zero_not hcr hr)
            · simp [EvWF]
            · simp only [EvWF]
              exact ⟨hewf.1, hewf.2.1, hewf.2.2.1, le_refl _, hewf.2.2.2.1, hewf.2.2.2.2⟩
          · intro b hb
            simp [hfbn] at hb
      | flowReq2 p p2 tS tE t1s t1e =>
        obtain ⟨hfbn, ⟨hc1, hc2⟩, hm1, hm2⟩ := flow_case_facts h.flowTok1 hsplit
          (by rw [hke]; rfl)
        have hcr : rest.countP (fun x => x.kind.isFlow) = 0 := by
          rw [hrest, List.countP_append]; omega
        simp only [EvWF, hke] at hewf
        simp only [handle, SimState.sched]
        refine ⟨?_, hemax, h.mean0, h.mean1, h.mean2, h.busy0, h.busy1, h.busy2,
          hbusyE, ?_, ?_, ?_, ?_, ?_, ?_, ?_, h.logOK, h.logIds⟩
        · intro x hx
          simp only [List.mem_append, List.mem_singleton] at hx
          rcases hx with hr | rfl
          · exact hrestT x hr
          · exact le_refl _
        · have h1 := h.flowTok1
          rw [flowTok, hsplit] at h1
          rw [flowTok]
          simp only [hrest, List.countP_append, List.countP_cons, List.countP_nil, hke,
            EvKind.isFlow, Bool.false_eq_true, if_false, if_true, Option.isSome_none,
            Option.isSome_some, hfbn] at h1 ⊢
          omega
        · have h1 := h.srcTok1
          rw [srcTok, hsplit] at h1
          rw [srcTok]
          simp only [hrest, List.countP_append, List.countP_cons, List.countP_nil, hke,
            EvKind.isSrc, Bool.false_eq_true, if_false, if_true, Option.isSome_none,
            Option.isSome_some] at h1 ⊢
          omega
        · intro x hx hxk
          simp only [List.mem_append, List.mem_singleton] at hx
          rcases hx with hr | rfl
          · exact h.srcInit0 x (hmemR x hr) hxk
          · simp at hxk
        · intro x hx hxk
          simp only [List.mem_append, List.mem_singleton] at hx
          rcases hx with hr | rfl
          · exact h.srcTimeout1 x (hmemR x hr) hxk
          · simp at hxk
        · have hc := h.conserve
          simp only [flowHeld, srcPend, created] at hc ⊢
          rw [hsplit] at hc
          rw [hrest]
          simp only [List.filterMap_append, List.filterMap_cons, List.filterMap_nil] at hc ⊢
          simp only [hm1, hm2] at hc ⊢
          simp only [hke] at hc
          simp only [hke, EvKind.heldId, FlowBlk.heldId, hfbn, Option.none_bind, Option.some_bind,
            Option.toList_some, Option.toList_none, List.any_append, List.any_cons, List.any_nil,
            Bool.false_or, Bool.or_false,
            show ((EvKind.flowReq2 p p2 tS tE t1s t1e == EvKind.srcInit) || (EvKind.flowReq2 p p2 tS tE t1s t1e == EvKind.srcTimeout)) = false from rfl,
            show ((EvKind.st2Init p p2 tS tE t1s t1e e.time == EvKind.srcInit) || (EvKind.st2Init p p2 tS tE t1s t1e e.time == EvKind.srcTimeout)) = false from rfl] at hc ⊢
          simp only [List.map_append, List.map_cons, List.map_nil, List.append_assoc,
            List.append_nil, List.nil_append, List.cons_append, List.singleton_append] at hc ⊢
          exact hc
        · intro x hx
          simp only [List.mem_append, List.mem_singleton] at hx
          rcases hx with hr | rfl
          · exact EvWF_nonflow (countP_zero_not hcr hr)
          · simp [EvWF, hewf.1, hewf.2.1, hewf.2.2.1, hewf.2.2.2.1, hewf.2.2.2.2.1,
              hewf.2.2.2.2.2]
        · intro b hb
          simp [hfbn] at hb
      | st2End p p2 tS tE t1s t1e t2s =>
        obtain ⟨hfbn, ⟨hc1, hc2⟩, hm1, hm2⟩ := flow_case_facts h.flowTok1 hsplit
          (by rw [hke]; rfl)
        have hcr : rest.countP (fun x => x.kind.isFlow) = 0 := by
          rw [hrest, List.countP_append]; omega
        simp only [EvWF, hke] at hewf
        simp only [handle, flowIssueGet, SimState.sched]
        rcases hq01 : σ.q01 with _ | ⟨pn, q01t⟩
        · refine ⟨?_, hemax, h.mean0, h.mean1, h.mean2, h.busy0, h.busy1, h.busy2,
            hbusyE, ?_, ?_, ?_, ?_, ?_, ?_, ?_, ?_, ?_⟩
          · intro x hx
            simp only [List.mem_append, List.mem_singleton] at hx
            rcases hx with hr | rfl
            · exact hrestT x hr
            · exact le_refl _
          · have h1 := h.flowTok1
            rw [flowTok, hsplit] at h1
            rw [flowTok]
            simp only [hrest, List.countP_append, List.countP_cons, List.countP_nil, hke,
              EvKind.isFlow, Bool.false_eq_true, if_false, if_true, Option.isSome_none,
              Option.isSome_some, hfbn] at h1 ⊢
            omega
          · have h1 := h.srcTok1
            rw [srcTok, hsplit] at h1
            rw [srcTok]
            simp only [hrest, List.countP_append, List.countP_cons, List.countP_nil, hke,
              EvKind.isSrc, Bool.false_eq_true, if_false, if_true, Option.isSome_none,
              Option.isSome_some] at h1 ⊢
            omega
          · intro x hx hxk
            simp only [List.mem_append, List.mem_singleton] at hx
            rcases hx with hr | rfl
            · exact h.srcInit0 x (hmemR x hr) hxk
            · simp at hxk
          · intro x hx hxk
            simp only [List.mem_append, List.mem_singleton] at hx
            rcases hx with hr | rfl
            · exact h.srcTimeout1 x (hmemR x hr) hxk
            · simp at hxk
          · have hp2 : p2.id = p.id := by rw [hewf.2.2.2.2.2.1]
            have hc := h.conserve
            simp only [flowHeld, srcPend, created] at hc ⊢
            rw [hsplit] at hc
            rw [hrest]
            simp only [List.filterMap_append, List.filterMap_cons, List.filterMap_nil] at hc ⊢
            simp only [hm1, hm2] at hc ⊢
            simp only [hke] at hc
            simp only [hke, EvKind.heldId, FlowBlk.heldId, hfbn, Option.none_bind, Option.some_bind,
              Option.toList_some, Option.toList_none, List.any_append, List.any_cons, List.any_nil,
              Bool.false_or, Bool.or_false, hp2, hq01,
              show ((EvKind.st2End p p2 tS tE t1s t1e t2s == EvKind.srcInit) || (EvKind.st2End p p2 tS tE t1s t1e t2s == EvKind.srcTimeout)) = false from rfl,
              show ((EvKind.resRelease 2 == EvKind.srcInit) || (EvKind.resRelease 2 == EvKind.srcTimeout)) = false from rfl] at hc ⊢
            simp only [List.map_append, List.map_cons, List.map_nil, List.append_assoc,
              List.append_nil, List.nil_append, List.cons_append, List.singleton_append] at hc ⊢
            exact hc
          · intro x hx
            simp only [List.mem_append, List.mem_singleton] at hx
            rcases hx with hr | rfl
            · exact EvWF_nonflow (countP_zero_not hcr hr)
            · simp [EvWF]
          · intro b hb
            simp only [Option.some.injEq] at hb
            rw [← hb]
            simpa [FlowBlkWF] using hewf.2.2.2.2.2.2
          · intro r hr
            rcases List.mem_append.mp hr with h1 | h2
            · exact h.logOK r h1
            · simp only [List.mem_singleton] at h2
              rw [h2]
              exact ⟨hewf.1, hewf.2.1, hewf.2.2.1, hewf.2.2.2.1, hewf.2.2.2.2.1⟩
          · simp only [List.map_append, List.map_cons, List.map_nil, h.logIds]
        · refine ⟨?_, hemax, h.mean0, h.mean1, h.mean2, h.busy0, h.busy1, h.busy2,
            hbusyE, ?_, ?_, ?_, ?_, ?_, ?_, ?_, ?_, ?_⟩
          · intro x hx
            simp only [List.mem_append, List.mem_singleton] at hx
            rcases hx with (hr | rfl) | rfl
            · exact hrestT x hr
            · exact le_refl _
            · exact le_refl _
          · have h1 := h.flowTok1
            rw [flowTok, hsplit] at h1
            rw [flowTok]
            simp only [hrest, List.countP_append, List.countP_cons, List.countP_nil, hke,
              EvKind.isFlow, Bool.false_eq_true, if_false, if_true, Option.isSome_none,
              Option.isSome_some, hfbn] at h1 ⊢
            omega
          · have h1 := h.srcTok1
            rw [srcTok, hsplit] at h1
            rw [srcTok]
            simp only [hrest, List.countP_append, List.countP_cons, List.countP_nil, hke,
              EvKind.isSrc, Bool.false_eq_true, if_false, if_true, Option.isSome_none,
              Option.isSome_some] at h1 ⊢
            omega
          · intro x hx hxk
            simp only [List.mem_append, List.mem_singleton] at hx
            rcases hx with (hr | rfl) | rfl
            · exact h.srcInit0 x (hmemR x hr) hxk
            · simp at hxk
            · simp at hxk
          · intro x hx hxk
            simp only [List.mem_append, List.mem_singleton] at hx
            rcases hx with (hr | rfl) | rfl
            · exact h.srcTimeout1 x (hmemR x hr) hxk
            · simp at hxk
            · simp at hxk
          · have hp2 : p2.id = p.id := by rw [hewf.2.2.2.2.2.1]
            have hc := h.conserve
            simp only [flowHeld, srcPend, created] at hc ⊢
            rw [hsplit] at hc
            rw [hrest]
            simp only [List.filterMap_append, List.filterMap_cons, List.filterMap_nil] at hc ⊢
            simp only [hm1, hm2] at hc ⊢
            simp only [hke] at hc
            simp only [hke, EvKind.heldId, FlowBlk.heldId, hfbn, Option.none_bind, Option.some_bind,
              Option.toList_some, Option.toList_none, List.any_append, List.any_cons, List.any_nil,
              Bool.false_or, Bool.or_false, hp2,
              show ((EvKind.st2End p p2 tS tE t1s t1e t2s == EvKind.srcInit) || (EvKind.st2End p p2 tS tE t1s t1e t2s == EvKind.srcTimeout)) = false from rfl,
              show ((EvKind.resRelease 2 == EvKind.srcInit) || (EvKind.resRelease 2 == EvKind.srcTimeout)) = false from rfl,
              show ((EvKind.flowGotPart pn == EvKind.srcInit) || (EvKind.flowGotPart pn == EvKind.srcTimeout)) = false from rfl, hq01] at hc ⊢
            simp only [List.map_append, List.map_cons, List.map_nil, List.append_assoc,
              List.append_nil, List.nil_append, List.cons_append, List.singleton_append] at hc ⊢
            exact hc
          · intro x hx
            simp only [List.mem_append, List.mem_singleton] at hx
            rcases hx with (hr | rfl) | rfl
            · exact EvWF_nonflow (countP_zero_not hcr hr)
            · simp [EvWF]
            · simpa [EvWF] using hewf.2.2.2.2.2.2
          · intro b hb
            simp [hfbn] at hb
          · intro r hr
            rcases List.mem_append.mp hr with h1 | h2
            · exact h.logOK r h1
            · simp only [List.mem_singleton] at h2
              rw [h2]
              exact ⟨hewf.1, hewf.2.1, hewf.2.2.1, hewf.2.2.2.1, hewf.2.2.2.2.1⟩
          · simp only [List.map_append, List.map_cons, List.map_nil, h.logIds]
    · simp only [hstop, if_false]
      exact h

/-- The initial state of a run satisfies the inductive invariant. -/
theorem init_inv (bufferCap : ℤ) : Inv (initState bufferCap) := by
  refine ⟨?_, ?_, ?_, ?_, ?_, ?_, ?_, ?_, ?_, ?_, ?_, ?_, ?_, ?_, ?_, ?_, ?_, ?_⟩
  · intro x hx
    simp only [initState, List.mem_cons, List.mem_singleton, List.not_mem_nil,
      or_false] at hx
    rcases hx with rfl | rfl <;> norm_num [initState]
  · norm_num [initState, SIM_TIME]
  · norm_num [initState, Station.init, PROC_MEANS]
  · norm_num [initState, Station.init, PROC_MEANS]
  · norm_num [initState, Station.init, PROC_MEANS]
  · norm_num [initState, Station.init]
  · norm_num [initState, Station.init]
  · norm_num [initState, Station.init]
  · norm_num [busySum, initState, Station.init]
  · rfl
  · rfl
  · intro x hx hxk
    rfl
  · intro x hx hxk
    simp only [initState, List.mem_cons, List.mem_singleton, List.not_mem_nil,
      or_false] at hx
    rcases hx with rfl | rfl <;> simp at hxk
  · rfl
  · intro x hx
    simp only [initState, List.mem_cons, List.mem_singleton, List.not_mem_nil,
      or_false] at hx
    rcases hx with rfl | rfl <;> simp [EvWF, initState]
  · intro b hb
    simp [initState] at hb
  · intro r hr
    simp [initState] at hr
  · rfl

/-- Every state reachable by the event loop satisfies the invariant. -/
theorem inv_runSim (exps : ℕ → ℚ) (he : ∀ i, 0 ≤ exps i) (cap : ℤ) :
    ∀ n, Inv (runSim exps cap n)
  | 0 => init_inv cap
  | n + 1 => step_inv exps he _ (inv_runSim exps he cap n)

/-- The two store capacities are fixed at construction: no handler changes
them. -/
theorem step_caps (exps : ℕ → ℚ) (σ : SimState) :
    (step exps σ).cap01 = σ.cap01 ∧ (step exps σ).cap12 = σ.cap12 := by
  unfold step
  cases hpop : popMin σ.events with
  | none => exact ⟨rfl, rfl⟩
  | some pr =>
    rcases pr with ⟨e, rest⟩
    by_cases hstop : e.key < stopKey
    · simp only [hstop, if_true]
      cases hke : e.kind <;>
        simp only [handle, srcResume, flowIssueGet, wakeQ01Get, wakeQ01Put,
          requestRes0, requestRes1, requestRes2, SimState.sched] <;>
        repeat' split
      all_goals first
        | exact ⟨rfl, rfl⟩
        | exact ⟨trivial, trivial⟩
        | exact ⟨trivial, rfl⟩
        | exact ⟨rfl, trivial⟩
    · simp only []
      rw [if_neg hstop]
      exact ⟨rfl, rfl⟩

/-- Throughout the run, `q01` keeps the capacity
`buffer_cap if buffer_cap > 0 else 1_000_000` and `q12` keeps `buffer_cap`. -/
theorem runSim_caps (exps : ℕ → ℚ) (cap : ℤ) :
    ∀ n, (runSim exps cap n).cap01 = (if cap > 0 then cap else 1000000) ∧
      (runSim exps cap n).cap12 = cap
  | 0 => ⟨rfl, rfl⟩
  | n + 1 => by
    have h1 := step_caps exps (runSim exps cap n)
    have h2 := runSim_caps exps cap n
    exact ⟨h1.1.trans h2.1, h1.2.trans h2.2⟩

theorem run_once_ok {exps : ℕ → ℚ} {fuel : ℕ} {cap : ℤ} {r : RunResult}
    (hr : run_once exps fuel cap = .ok r) :
    0 < cap ∧
    r = { buffer := cap,
          throughputPerMin :=
            ((((runSim exps cap fuel).out.filter
                (fun o => WARMUP ≤ o.tOut)).length : ℚ)) / (SIM_TIME - WARMUP),
          utilization := [(runSim exps cap fuel).s0.busyTime / SIM_TIME,
            (runSim exps cap fuel).s1.busyTime / SIM_TIME,
            (runSim exps cap fuel).s2.busyTime / SIM_TIME],
          log := (runSim exps cap fuel).log } := by
  by_cases h0 : cap ≤ 0
  · exfalso
    unfold run_once mkStoreCapacity at hr
    rw [if_neg (by omega)] at hr
    simp only [if_pos h0] at hr
    cases hr
  · constructor
    · omega
    · unfold run_once mkStoreCapacity at hr
      rw [if_neg (by omega), if_neg h0] at hr
      exact Except.ok.inj hr.symm

theorem busy_mono (exps : ℕ → ℚ) (σ : SimState) (h : Inv σ) :
    σ.s0.busyTime ≤ (step exps σ).s0.busyTime ∧
    σ.s1.busyTime ≤ (step exps σ).s1.busyTime ∧
    σ.s2.busyTime ≤ (step exps σ).s2.busyTime := by
  unfold step
  cases hpop : popMin σ.events with
  | none => exact ⟨le_refl _, le_refl _, le_refl _⟩
  | some pr =>
    rcases pr with ⟨e, rest⟩
    by_cases hstop : e.key < stopKey
    · simp only [hstop, if_true]
      have hmem : e ∈ σ.events := by
        obtain ⟨l₁, l₂, hsp, _⟩ := popMin_split hpop
        rw [hsp]; simp
      have hewf := h.evWF e hmem
      cases hke : e.kind <;>
        simp only [EvWF, hke] at hewf <;>
        simp only [handle, srcResume, flowIssueGet, wakeQ01Get, wakeQ01Put,
          requestRes0, requestRes1, requestRes2, SimState.sched] <;>
        repeat' split
      all_goals
        refine ⟨?_, ?_, ?_⟩ <;>
          first
            | exact le_refl _
            | linarith [hewf.2.1]
    · simp only [hstop, if_false]
      exact ⟨le_refl _, le_refl _, le_refl _⟩

theorem out_eq_range' {σ : SimState} (h : Inv σ) :
    σ.out.map OutRec.id = List.range' 1 (σ.out.map OutRec.id).length := by
  have hc := h.conserve
  set l₁ := σ.out.map OutRec.id with hl₁
  set l₂ := flowHeld σ ++ σ.q01.map Part.id ++ srcPend σ with hl₂
  have hc2 : l₁ ++ l₂ = List.range' 1 (created σ) := by
    rw [hl₁, hl₂]
    simp only [List.append_assoc] at hc ⊢
    exact hc
  have hlen : l₁.length + l₂.length = created σ := by
    have := congrArg List.length hc2
    simpa using this
  have hsp : List.range' 1 (created σ) =
      List.range' 1 l₁.length ++ List.range' (1 + l₁.length) l₂.length := by
    have h1 := List.range'_append 1 l₁.length l₂.length 1
    simp only [one_mul] at h1
    rw [h1, Nat.add_comm l₂.length l₁.length, hlen]
  rw [hsp] at hc2
  have := List.append_inj hc2 (by simp)
  exact this.1

theorem q12_len_le_one {σ : SimState} (h : Inv σ) (hcap : 1 ≤ σ.cap12) :
    σ.q12.length ≤ 1 ∧
    (∀ p tS tE item, σ.flowBlk ≠ some (.waitPut12 p tS tE item)) := by
  have htok := h.flowTok1
  rw [flowTok] at htok
  cases hfb : σ.flowBlk with
  | some b =>
    have hwf := h.blkWF b hfb
    cases b with
    | waitQ01 => simp [FlowBlkWF] at hwf; simp [hwf, hfb]
    | waitRes0 p => simp [FlowBlkWF] at hwf; simp [hwf, hfb]
    | waitPut12 p tS tE item =>
      exfalso
      simp only [FlowBlkWF] at hwf
      omega
    | waitGet12 p tS tE => simp [FlowBlkWF] at hwf
    | waitRes1 p p2 tS tE => simp [FlowBlkWF] at hwf; simp [hwf, hfb]
    | waitRes2 p p2 tS tE t1s t1e => simp [FlowBlkWF] at hwf; simp [hwf, hfb]
  | none =>
    rw [hfb] at htok
    simp only [Option.isSome_none, Bool.false_eq_true, if_false] at htok
    have hpos : 0 < σ.events.countP (fun x => x.kind.isFlow) := by omega
    obtain ⟨e, hmem, hef⟩ := List.countP_pos.mp hpos
    have hwf := h.evWF e hmem
    refine ⟨?_, by simp [hfb]⟩
    cases hke : e.kind <;> simp only [EvKind.isFlow, hke] at hef <;>
      simp only [EvWF, hke] at hwf <;>
      first
        | (exact absurd hef Bool.false_ne_true)
        | (rw [hwf]; simp)
        | (rw [hwf.2]; simp)
        | (rw [hwf.2.2]; simp)
        | (rw [hwf.2.2.2]; simp)
        | (rw [hwf.2.2.2.2]; simp)
        | (rw [hwf.2.2.2.2.2]; simp)
        | (rw [hwf.2.2.2.2.2.2]; simp)
        | (rw [hwf.2.2.2.2.2.2.2]; simp)
        | (rw [hwf.2.2.2.2.2.2.2.2]; simp)
        | (rw [hwf.2.2.2.2.2.2.2.2.2]; simp)


theorem unitStream_nonneg : ∀ i, 0 ≤ unitStream i := by
  intro i
  norm_num [unitStream]

/-- C1: A store construction with capacity 0 is rejected eagerly with the
invalid-capacity error, a positive capacity passes through unchanged (never
silently clamped), and `run_once` with configured buffer capacity 0 fails
on the inter-station buffer q12 with that error instead of producing a
result. -/
theorem c1_capacity_zero_rejected :
    mkStoreCapacity 0 = Except.error SimError.invalidCapacity ∧
    (∀ cap : ℤ, 0 < cap → mkStoreCapacity cap = Except.ok cap) ∧
    (∀ (exps : ℕ → ℚ) (fuel : ℕ),
      run_once exps fuel 0 = Except.error SimError.invalidCapacity) := by
  refine ⟨rfl, ?_, ?_⟩
  · intro cap hcap
    unfold mkStoreCapacity
    rw [if_neg (by omega)]
  · intro exps fuel
    rfl

/-- C1 witness: capacity 3 is accepted unchanged and a concrete capacity-0
run is rejected. -/
theorem c1_capacity_zero_rejected_w :
    mkStoreCapacity 3 = Except.ok 3 ∧
    run_once unitStream 5 0 = Except.error SimError.invalidCapacity :=
  ⟨c1_capacity_zero_rejected.2.1 3 (by norm_num),
   c1_capacity_zero_rejected.2.2 unitStream 5⟩

/-- C2: Determinism: two runs with the same buffer capacity and the same
sampler stream (same seed) are identical — every intermediate simulation
state agrees, and `run_once` returns the same record: same throughput,
same utilizations, same log rows. -/
theorem c2_deterministic (cap : ℤ) (exps1 exps2 : ℕ → ℚ)
    (hseed : ∀ i, exps1 i = exps2 i) (fuel : ℕ) :
    runSim exps1 cap fuel = runSim exps2 cap fuel ∧
    run_once exps1 fuel cap = run_once exps2 fuel cap := by
  have h : exps1 = exps2 := funext hseed
  subst h
  exact ⟨rfl, rfl⟩

/-- C2 witness: a literal replay of the same stream yields the same run. -/
theorem c2_deterministic_w :
    runSim unitStream 2 12 = runSim (fun i => unitStream i) 2 12 ∧
    run_once unitStream 12 2 = run_once (fun i => unitStream i) 12 2 :=
  c2_deterministic 2 unitStream (fun i => unitStream i) (fun _ => rfl) 12

/-- C3: `Station.process` samples the service time exactly once, before the
suspension: handling a station's sub-process Initialize event consumes
exactly one draw from the stream, leaves `busy_time` untouched and
schedules the wake-up at `t_start + pt`; handling the wake-up (the end of
the suspension) consumes no draw and adds exactly that sampled `pt` to
`busy_time`, and the wake-up fires at `t_start + pt`, so the recorded
increment equals the virtual time that elapsed during the suspension. -/
theorem c3_service_sampled_once (exps : ℕ → ℚ) (σ : SimState) (h : Inv σ)
    (e : Ev) (rest : List Ev) (hpop : popMin σ.events = some (e, rest))
    (hrun : e.key < stopKey) :
    (∀ p tS, e.kind = EvKind.st0Init p tS →
      (step exps σ).rnd = σ.rnd + 1 ∧
      (step exps σ).s0.busyTime = σ.s0.busyTime ∧
      e.time = tS ∧
      (step exps σ).events = rest ++
        [⟨tS + σ.s0.meanProc * exps σ.rnd, 1, σ.nextEid,
          EvKind.st0Timeout p tS (σ.s0.meanProc * exps σ.rnd)⟩]) ∧
    (∀ p tS pt, e.kind = EvKind.st0Timeout p tS pt →
      (step exps σ).rnd = σ.rnd ∧
      (step exps σ).s0.busyTime = σ.s0.busyTime + pt ∧
      e.time = tS + pt) ∧
    (∀ p p2 tS tE t1s, e.kind = EvKind.st1Init p p2 tS tE t1s →
      (step exps σ).rnd = σ.rnd + 1 ∧
      (step exps σ).s1.busyTime = σ.s1.busyTime ∧
      e.time = t1s ∧
      (step exps σ).events = rest ++
        [⟨t1s + σ.s1.meanProc * exps σ.rnd, 1, σ.nextEid,
          EvKind.st1Timeout p p2 tS tE t1s (σ.s1.meanProc * exps σ.rnd)⟩]) ∧
    (∀ p p2 tS tE t1s pt, e.kind = EvKind.st1Timeout p p2 tS tE t1s pt →
      (step exps σ).rnd = σ.rnd ∧
      (step exps σ).s1.busyTime = σ.s1.busyTime + pt ∧
      e.time = t1s + pt) ∧
    (∀ p p2 tS tE t1s t1e t2s, e.kind = EvKind.st2Init p p2 tS tE t1s t1e t2s →
      (step exps σ).rnd = σ.rnd + 1 ∧
      (step exps σ).s2.busyTime = σ.s2.busyTime ∧
      e.time = t2s ∧
      (step exps σ).events = rest ++
        [⟨t2s + σ.s2.meanProc * exps σ.rnd, 1, σ.nextEid,
          EvKind.st2Timeout p p2 tS tE t1s t1e t2s (σ.s2.meanProc * exps σ.rnd)⟩]) ∧
    (∀ p p2 tS tE t1s t1e t2s pt,
      e.kind = EvKind.st2Timeout p p2 tS tE t1s t1e t2s pt →
      (step exps σ).rnd = σ.rnd ∧
      (step exps σ).s2.busyTime = σ.s2.busyTime + pt ∧
      e.time = t2s + pt) := by
  obtain ⟨l₁, l₂, hl, -⟩ := popMin_split hpop
  have hmem : e ∈ σ.events := by rw [hl]; simp
  have hewf := h.evWF e hmem
  refine ⟨?_, ?_, ?_, ?_, ?_, ?_⟩
  · intro p tS hk
    simp only [EvWF, hk] at hewf
    unfold step
    rw [hpop]
    simp only []
    rw [if_pos hrun, hk]
    simp only [handle, SimState.sched]
    refine ⟨?_, ?_, hewf.1, ?_⟩
    · first | rfl | trivial
    · first | rfl | trivial
    · rw [hewf.1]
  · intro p tS pt hk
    simp only [EvWF, hk] at hewf
    unfold step
    rw [hpop]
    simp only []
    rw [if_pos hrun, hk]
    simp only [handle, SimState.sched]
    refine ⟨?_, ?_, hewf.1⟩
    · first | rfl | trivial
    · first | rfl | trivial
  · intro p p2 tS tE t1s hk
    simp only [EvWF, hk] at hewf
    unfold step
    rw [hpop]
    simp only []
    rw [if_pos hrun, hk]
    simp only [handle, SimState.sched]
    refine ⟨?_, ?_, hewf.1, ?_⟩
    · first | rfl | trivial
    · first | rfl | trivial
    · rw [hewf.1]
  · intro p p2 tS tE t1s pt hk
    simp only [EvWF, hk] at hewf
    unfold step
    rw [hpop]
    simp only []
    rw [if_pos hrun, hk]
    simp only [handle, SimState.sched]
    refine ⟨?_, ?_, hewf.1⟩
    · first | rfl | trivial
    · first | rfl | trivial
  · intro p p2 tS tE t1s t1e t2s hk
    simp only [EvWF, hk] at hewf
    unfold step
    rw [hpop]
    simp only []
    rw [if_pos hrun, hk]
    simp only [handle, SimState.sched]
    refine ⟨?_, ?_, hewf.1, ?_⟩
    · first | rfl | trivial
    · first | rfl | trivial
    · rw [hewf.1]
  · intro p p2 tS tE t1s t1e t2s pt hk
    simp only [EvWF, hk] at hewf
    unfold step
    rw [hpop]
    simp only []
    rw [if_pos hrun, hk]
    simp only [handle, SimState.sched]
    refine ⟨?_, ?_, hewf.1⟩
    · first | rfl | trivial
    · first | rfl | trivial

theorem c3state_inv : Inv c3state := by
  refine ⟨?_, ?_, ?_, ?_, ?_, ?_, ?_, ?_, ?_, ?_, ?_, ?_, ?_, ?_, ?_, ?_, ?_, ?_⟩
  · intro x hx
    simp only [c3state, List.mem_cons, List.mem_singleton, List.not_mem_nil,
      or_false] at hx
    rcases hx with rfl | rfl <;> norm_num [c3state]
  · norm_num [c3state, SIM_TIME]
  · norm_num [c3state, Station.init]
  · norm_num [c3state, Station.init]
  · norm_num [c3state, Station.init]
  · norm_num [c3state, Station.init]
  · norm_num [c3state, Station.init]
  · norm_num [c3state, Station.init]
  · norm_num [busySum, c3state, Station.init]
  · rfl
  · rfl
  · intro x hx hxk
    simp only [c3state, List.mem_cons, List.mem_singleton, List.not_mem_nil,
      or_false] at hx
    rcases hx with rfl | rfl <;> simp at hxk
  · intro x hx hxk
    norm_num [c3state]
  · rfl
  · intro x hx
    simp only [c3state, List.mem_cons, List.mem_singleton, List.not_mem_nil,
      or_false] at hx
    rcases hx with rfl | rfl
    · exact ⟨rfl, rfl⟩
    · trivial
  · intro b hb
    simp [c3state] at hb
  · intro r hr
    simp [c3state] at hr
  · rfl

/-- C3 witness: at the concrete state with part 1 entering station 0 at
time 5, the service start consumes one draw and schedules the wake-up at
start + sampled duration. -/
theorem c3_service_sampled_once_w :
    (step unitStream c3state).rnd = c3state.rnd + 1 ∧
    (step unitStream c3state).s0.busyTime = c3state.s0.busyTime ∧
    (⟨5, 0, 8, EvKind.st0Init ⟨1, 5⟩ 5⟩ : Ev).time = 5 ∧
    (step unitStream c3state).events =
      [⟨10, 1, 6, EvKind.srcTimeout⟩] ++
        [⟨(5 : ℚ) + c3state.s0.meanProc * unitStream c3state.rnd, 1,
          c3state.nextEid,
          EvKind.st0Timeout ⟨1, 5⟩ 5
            (c3state.s0.meanProc * unitStream c3state.rnd)⟩] :=
  (c3_service_sampled_once unitStream c3state c3state_inv
      ⟨5, 0, 8, EvKind.st0Init ⟨1, 5⟩ 5⟩ [⟨10, 1, 6, EvKind.srcTimeout⟩]
      (by rfl) (key_lt_stop (by norm_num [SIM_TIME]))).1 ⟨1, 5⟩ 5 rfl

/-- C4: The utilization reported by `run_once` is exactly
`busy_time / SIM_TIME` for each of the three stations, every entry lies in
[0, 1], and each station's cumulative busy time never decreases as the
event loop advances one more step. -/
theorem c4_utilization_bounds (exps : ℕ → ℚ) (he : ∀ i, 0 ≤ exps i) (cap : ℤ)
    (fuel : ℕ) (r : RunResult) (hr : run_once exps fuel cap = Except.ok r) :
    r.utilization = [(runSim exps cap fuel).s0.busyTime / SIM_TIME,
      (runSim exps cap fuel).s1.busyTime / SIM_TIME,
      (runSim exps cap fuel).s2.busyTime / SIM_TIME] ∧
    (∀ u ∈ r.utilization, 0 ≤ u ∧ u ≤ 1) ∧
    (runSim exps cap fuel).s0.busyTime ≤ (runSim exps cap (fuel + 1)).s0.busyTime ∧
    (runSim exps cap fuel).s1.busyTime ≤ (runSim exps cap (fuel + 1)).s1.busyTime ∧
    (runSim exps cap fuel).s2.busyTime ≤ (runSim exps cap (fuel + 1)).s2.busyTime := by
  have hinv := inv_runSim exps he cap fuel
  obtain ⟨hpos, hre⟩ := run_once_ok hr
  have hutil : r.utilization =
      [(runSim exps cap fuel).s0.busyTime / SIM_TIME,
        (runSim exps cap fuel).s1.busyTime / SIM_TIME,
        (runSim exps cap fuel).s2.busyTime / SIM_TIME] := by
    rw [hre]
  have hmono := busy_mono exps (runSim exps cap fuel) hinv
  refine ⟨hutil, ?_, hmono.1, hmono.2.1, hmono.2.2⟩
  have hT : (0 : ℚ) < SIM_TIME := by norm_num [SIM_TIME]
  have hbsum : busySum (runSim exps cap fuel) ≤ SIM_TIME :=
    le_trans hinv.busyNow hinv.nowMax
  rw [busySum] at hbsum
  have hb0 := hinv.busy0
  have hb1 := hinv.busy1
  have hb2 := hinv.busy2
  intro u hu
  rw [hutil] at hu
  simp only [List.mem_cons, List.not_mem_nil, or_false] at hu
  rcases hu with rfl | rfl | rfl
  · exact ⟨div_nonneg hb0 hT.le, (div_le_one hT).mpr (by linarith)⟩
  · exact ⟨div_nonneg hb1 hT.le, (div_le_one hT).mpr (by linarith)⟩
  · exact ⟨div_nonneg hb2 hT.le, (div_le_one hT).mpr (by linarith)⟩

/-- C4 witness at a concrete zero-step run. -/
theorem c4_utilization_bounds_w :
    smallRes.utilization = [(runSim unitStream 2 0).s0.busyTime / SIM_TIME,
      (runSim unitStream 2 0).s1.busyTime / SIM_TIME,
      (runSim unitStream 2 0).s2.busyTime / SIM_TIME] ∧
    (∀ u ∈ smallRes.utilization, 0 ≤ u ∧ u ≤ 1) ∧
    (runSim unitStream 2 0).s0.busyTime ≤ (runSim unitStream 2 1).s0.busyTime ∧
    (runSim unitStream 2 0).s1.busyTime ≤ (runSim unitStream 2 1).s1.busyTime ∧
    (runSim unitStream 2 0).s2.busyTime ≤ (runSim unitStream 2 1).s2.busyTime :=
  c4_utilization_bounds unitStream unitStream_nonneg 2 0 smallRes (by rfl)

/-- C5: The reported throughput equals the number of completed parts whose
exit stamp is at least WARMUP, divided by SIM_TIME − WARMUP. -/
theorem c5_throughput_formula (exps : ℕ → ℚ) (cap : ℤ) (fuel : ℕ)
    (r : RunResult) (hr : run_once exps fuel cap = Except.ok r) :
    r.throughputPerMin =
      (((runSim exps cap fuel).out.filter
          (fun o => WARMUP ≤ o.tOut)).length : ℚ) / (SIM_TIME - WARMUP) := by
  obtain ⟨-, hre⟩ := run_once_ok hr
  rw [hre]

/-- C5 witness at a concrete short run. -/
theorem c5_throughput_formula_w :
    smallRes.throughputPerMin =
      (((runSim unitStream 2 0).out.filter
          (fun o => WARMUP ≤ o.tOut)).length : ℚ) / (SIM_TIME - WARMUP) :=
  c5_throughput_formula unitStream 2 0 smallRes (by rfl)

/-- C6: FIFO exit order — the ids appended to `out_list` are exactly
1, 2, …, n in order: strictly increasing, no part delivered out of order,
none duplicated, none skipped among those that complete, at every
reachable state of every run. -/
theorem c6_fifo_exit (exps : ℕ → ℚ) (he : ∀ i, 0 ≤ exps i) (cap : ℤ)
    (fuel : ℕ) :
    (runSim exps cap fuel).out.map OutRec.id =
      List.range' 1 (runSim exps cap fuel).out.length ∧
    ((runSim exps cap fuel).out.map OutRec.id).Nodup ∧
    ((runSim exps cap fuel).out.map OutRec.id).Chain' (fun a b => a < b) := by
  have hinv := inv_runSim exps he cap fuel
  have h1 := out_eq_range' hinv
  rw [List.length_map] at h1
  refine ⟨h1, ?_, ?_⟩
  · rw [h1]
    exact List.nodup_range' 1 (runSim exps cap fuel).out.length
  · rw [h1]
    exact (List.pairwise_lt_range' 1 (runSim exps cap fuel).out.length).chain'

/-- C6 witness on a concrete run. -/
theorem c6_fifo_exit_w :
    (runSim unitStream 2 40).out.map OutRec.id =
      List.range' 1 (runSim unitStream 2 40).out.length ∧
    ((runSim unitStream 2 40).out.map OutRec.id).Nodup ∧
    ((runSim unitStream 2 40).out.map OutRec.id).Chain' (fun a b => a < b) :=
  c6_fifo_exit unitStream unitStream_nonneg 2 40

/-- C7: The arrival generator creates parts with ids 1, 2, 3, …: at every
reachable state the ids issued so far (departed, in flight, buffered, or
held by a blocked put) are exactly the range 1 .. created, in order; and
when an inter-arrival timeout fires, the part put into `q01` (or captured
by a blocked put) carries id `srcI` — the incremented loop counter — and
arrival stamp equal to the clock at that moment. -/
theorem c7_source_ids (exps : ℕ → ℚ) (he : ∀ i, 0 ≤ exps i) (cap : ℤ)
    (fuel : ℕ) :
    ((runSim exps cap fuel).out.map OutRec.id ++ flowHeld (runSim exps cap fuel) ++
      (runSim exps cap fuel).q01.map Part.id ++ srcPend (runSim exps cap fuel) =
      List.range' 1 (created (runSim exps cap fuel))) ∧
    (∀ e rest, popMin (runSim exps cap fuel).events = some (e, rest) →
      e.key < stopKey → e.kind = EvKind.srcTimeout →
      (step exps (runSim exps cap fuel)).now = e.time ∧
      ((step exps (runSim exps cap fuel)).q01 =
          (runSim exps cap fuel).q01 ++ [⟨(runSim exps cap fuel).srcI, e.time⟩] ∨
        (step exps (runSim exps cap fuel)).srcBlk =
          some ⟨(runSim exps cap fuel).srcI, e.time⟩)) := by
  refine ⟨(inv_runSim exps he cap fuel).conserve, ?_⟩
  intro e rest hpop hrun hk
  unfold step
  rw [hpop]
  simp only []
  rw [if_pos hrun, hk]
  simp only [handle, SimState.sched]
  by_cases hroom : (((runSim exps cap fuel).q01.length : ℤ) < (runSim exps cap fuel).cap01)
  · rw [if_pos hroom]
    exact ⟨rfl, Or.inl rfl⟩
  · rw [if_neg hroom]
    exact ⟨rfl, Or.inr rfl⟩

/-- C7 witness: the id-conservation and arrival facts at a concrete run. -/
theorem c7_source_ids_w :
    ((runSim unitStream 2 2).out.map OutRec.id ++ flowHeld (runSim unitStream 2 2) ++
      (runSim unitStream 2 2).q01.map Part.id ++ srcPend (runSim unitStream 2 2) =
      List.range' 1 (created (runSim unitStream 2 2))) ∧
    (∀ e rest, popMin (runSim unitStream 2 2).events = some (e, rest) →
      e.key < stopKey → e.kind = EvKind.srcTimeout →
      (step unitStream (runSim unitStream 2 2)).now = e.time ∧
      ((step unitStream (runSim unitStream 2 2)).q01 =
          (runSim unitStream 2 2).q01 ++ [⟨(runSim unitStream 2 2).srcI, e.time⟩] ∨
        (step unitStream (runSim unitStream 2 2)).srcBlk =
          some ⟨(runSim unitStream 2 2).srcI, e.time⟩)) :=
  c7_source_ids unitStream unitStream_nonneg 2 2

/-- C8: Per-part state machine: every logged row has non-decreasing stage
timestamps (t0s ≤ t0e ≤ t1s ≤ t1e ≤ t2s ≤ t2e), the logged ids coincide in
order with the departed ids, no part departs twice, and the id a pending
completion event will log equals the id of the part serviced at stage 0. -/
theorem c8_part_state_machine (exps : ℕ → ℚ) (he : ∀ i, 0 ≤ exps i) (cap : ℤ)
    (fuel : ℕ) :
    (∀ row ∈ (runSim exps cap fuel).log, RowOK row) ∧
    (runSim exps cap fuel).log.map LogRow.id =
      (runSim exps cap fuel).out.map OutRec.id ∧
    ((runSim exps cap fuel).out.map OutRec.id).Nodup ∧
    (∀ e ∈ (runSim exps cap fuel).events, ∀ p p2 tS tE t1s t1e t2s,
      e.kind = EvKind.st2End p p2 tS tE t1s t1e t2s → p2.id = p.id) := by
  have hinv := inv_runSim exps he cap fuel
  refine ⟨hinv.logOK, hinv.logIds, ?_, ?_⟩
  · have h1 := out_eq_range' hinv
    rw [h1]
    exact List.nodup_range' 1 ((runSim exps cap fuel).out.map OutRec.id).length
  · intro e hmem p p2 tS tE t1s t1e t2s hk
    have hewf := hinv.evWF e hmem
    simp only [EvWF, hk] at hewf
    rw [hewf.2.2.2.2.2.1]

/-- C8 witness on a concrete run. -/
theorem c8_part_state_machine_w :
    (∀ row ∈ (runSim unitStream 2 12).log, RowOK row) ∧
    (runSim unitStream 2 12).log.map LogRow.id =
      (runSim unitStream 2 12).out.map OutRec.id ∧
    ((runSim unitStream 2 12).out.map OutRec.id).Nodup ∧
    (∀ e ∈ (runSim unitStream 2 12).events, ∀ p p2 tS tE t1s t1e t2s,
      e.kind = EvKind.st2End p p2 tS tE t1s t1e t2s → p2.id = p.id) :=
  c8_part_state_machine unitStream unitStream_nonneg 2 12

/-- C9: `q01` is constructed with capacity `buffer_cap if buffer_cap > 0
else 1_000_000`: a non-positive configured capacity yields the very large
finite capacity 1,000,000 rather than a truly unbounded buffer, a positive
one is used as configured, and the capacity never changes during the run. -/
theorem c9_q01_capacity (cap : ℤ) (exps : ℕ → ℚ) (fuel : ℕ) :
    (cap ≤ 0 → (initState cap).cap01 = 1000000) ∧
    (0 < cap → (initState cap).cap01 = cap) ∧
    (runSim exps cap fuel).cap01 = (initState cap).cap01 := by
  refine ⟨?_, ?_, ?_⟩
  · intro h
    show (if cap > 0 then cap else 1000000) = 1000000
    rw [if_neg (by omega)]
  · intro h
    show (if cap > 0 then cap else 1000000) = cap
    rw [if_pos (by omega)]
  · rw [(runSim_caps exps cap fuel).1]
    rfl

/-- C9 witness: capacity 0 becomes 1,000,000, capacity 7 stays 7, and a
concrete run keeps its initial capacity. -/
theorem c9_q01_capacity_w :
    (initState 0).cap01 = 1000000 ∧ (initState 7).cap01 = 7 ∧
    (runSim unitStream 0 5).cap01 = (initState 0).cap01 :=
  ⟨(c9_q01_capacity 0 unitStream 5).1 (by norm_num),
   (c9_q01_capacity 7 unitStream 5).2.1 (by norm_num),
   (c9_q01_capacity 0 unitStream 5).2.2⟩

/-- C10: The inter-station store `q12` holds at most one item at every
reachable state; with any positive configured q12 capacity the flow's
`q12.put` never blocks (the capacity never constrains the pipeline); and
handling the put's completion immediately pops the item just deposited:
the get returns the part with the stage-0 part's id and leaves `q12`
empty. -/
theorem c10_q12_at_most_one (exps : ℕ → ℚ) (he : ∀ i, 0 ≤ exps i) (cap : ℤ)
    (hcap : 1 ≤ cap) (fuel : ℕ) :
    (runSim exps cap fuel).q12.length ≤ 1 ∧
    (∀ p tS tE item,
      (runSim exps cap fuel).flowBlk ≠ some (FlowBlk.waitPut12 p tS tE item)) ∧
    (∀ e rest p tS tE,
      popMin (runSim exps cap fuel).events = some (e, rest) →
      e.key < stopKey → e.kind = EvKind.flowPut12Done p tS tE →
      (runSim exps cap fuel).q12 = [⟨p.id, tE⟩] ∧
      (step exps (runSim exps cap fuel)).q12 = [] ∧
      (step exps (runSim exps cap fuel)).events = rest ++
        [⟨e.time, 1, (runSim exps cap fuel).nextEid,
          EvKind.flowGot12 p ⟨p.id, tE⟩ tS tE⟩]) := by
  have hinv := inv_runSim exps he cap fuel
  have hc12 : 1 ≤ (runSim exps cap fuel).cap12 := by
    rw [(runSim_caps exps cap fuel).2]
    exact hcap
  obtain ⟨hlen, hnoblk⟩ := q12_len_le_one hinv hc12
  refine ⟨hlen, hnoblk, ?_⟩
  intro e rest p tS tE hpop hrun hk
  obtain ⟨l₁, l₂, hl, -⟩ := popMin_split hpop
  have hmem : e ∈ (runSim exps cap fuel).events := by rw [hl]; simp
  have hewf := hinv.evWF e hmem
  simp only [EvWF, hk] at hewf
  have hq12 : (runSim exps cap fuel).q12 = [⟨p.id, tE⟩] := hewf.2.2
  refine ⟨hq12, ?_, ?_⟩
  · unfold step
    rw [hpop]
    simp only []
    rw [if_pos hrun, hk]
    simp only [handle, SimState.sched]
    rw [hq12]
  · unfold step
    rw [hpop]
    simp only []
    rw [if_pos hrun, hk]
    simp only [handle, SimState.sched]
    rw [hq12]

/-- C10 witness: the at-most-one and no-blocking facts at a concrete run
with q12 capacity 2. -/
theorem c10_q12_at_most_one_w :
    (runSim unitStream 2 12).q12.length ≤ 1 ∧
    (∀ p tS tE item,
      (runSim unitStream 2 12).flowBlk ≠ some (FlowBlk.waitPut12 p tS tE item)) ∧
    (∀ e rest p tS tE,
      popMin (runSim unitStream 2 12).events = some (e, rest) →
      e.key < stopKey → e.kind = EvKind.flowPut12Done p tS tE →
      (runSim unitStream 2 12).q12 = [⟨p.id, tE⟩] ∧
      (step unitStream (runSim unitStream 2 12)).q12 = [] ∧
      (step unitStream (runSim unitStream 2 12)).events = rest ++
        [⟨e.time, 1, (runSim unitStream 2 12).nextEid,
          EvKind.flowGot12 p ⟨p.id, tE⟩ tS tE⟩]) :=
  c10_q12_at_most_one unitStream unitStream_nonneg 2 (by norm_num) 12

end Sim
